import Mathlib

/-!
Verification of the floatcsep/fecsep/gefe earthquake-forecast experiment
orchestrator.  The development shallowly embeds, from the sources:

* `fecsep/experiment.py` — the task scheduler `Experiment.prepare_tasks`,
  `Experiment.get_model`, and the path computation of
  `Experiment.prepare_paths`;
* `gefe/models.py` — `Model.create_forecast`, `Experiment.get_forecast`,
  `Experiment.get_run_struct`, `Experiment.get_catalog`,
  `Experiment._prepare_test_func_args` and `Experiment.prepare_all_tests`;
* `floatcsep/registry.py` — `BaseFileRegistry._parse_arg`, the `get_result` /
  `get_test_catalog` / `get_figure` / `get` resolution loop, and
  `ExperimentRegistry.build_tree`.

Datetimes are abstracted to natural numbers (only ordering and identity of
dates matter to the embedded code).  The filesystem is modelled as a list of
existing paths.  External scientific collaborators (forecast-producing
functions, catalog readers) are abstracted to their identities: invoking them
is observable (an invocation counter), and their outputs are recorded as
provenance values.
-/

namespace FloatCSEP

/-- Substring containment, mirroring the Python expression `pat in s` used by
the scheduler on evaluation-type strings and on file names. -/
def strContains (s pat : String) : Bool :=
  decide (List.IsInfix pat.toList s.toList)

/-- A testing time window: an ordered pair of timestamps (abstracted to
naturals). -/
structure TimeWindow where
  start : Nat
  stop : Nat
deriving DecidableEq, Repr

/-- Modelled from the spec: `timewindow2str` lives in `fecsep/utils.py` and
`floatcsep/utils.py`, which are not under `src/`; per the spec a time window
"serializes to a canonical string key".  The source function is polymorphic
(a list of windows maps to a list of strings); lists are handled here by
`List.map timewindow2str` at the call sites. -/
def timewindow2str (tw : TimeWindow) : String :=
  toString tw.start ++ "_" ++ toString tw.stop

namespace Fecsep

/-- A fecsep model, as consumed by `Experiment.prepare_tasks`: only its name
is read there. -/
structure ModelF where
  name : String
deriving DecidableEq, Repr

/-- Modelled from the spec: `fecsep/evaluation.py` is not under `src/`.  Per
the spec an Evaluation has a name, a `type` tag drawn from
{Discrete, Sequential} x {Absolute, Comparative, Batch} (matched by the
scheduler through substring containment), and a reference-model field
populated only for Comparative/Batch variants.  Only these three attributes
are read by `prepare_tasks`. -/
structure Evaluation where
  name : String
  type : String
  ref_model : Option String
deriving DecidableEq, Repr

/-- Keyword value bound to a task's `timewindow` argument: a single window
string for discrete tests, the full window-string list for sequential ones. -/
inductive TWArg
  | single (s : String)
  | multi (ls : List String)
deriving DecidableEq, Repr

/-- Keyword value bound to a task's `catalog` argument. -/
inductive CatArg
  | single (p : String)
  | multi (ps : List String)
deriving DecidableEq, Repr

/-- Keyword value bound to a task's `ref_model` argument: the result of
`get_model` (possibly `none`) for comparative tests, or the whole model list
for batch tests. -/
inductive RefArg
  | one (m : Option ModelF)
  | all (ms : List ModelF)
deriving DecidableEq, Repr

/-- The keyword-argument bundle of a `compute` task. -/
structure ComputeKwargs where
  timewindow : TWArg
  catalog : CatArg
  model : ModelF
  ref_model : Option RefArg
  path : String
deriving DecidableEq, Repr

/-- A deferred unit of work: the bound instance and method are encoded by the
constructor, the keyword arguments by its fields. -/
inductive Task
  | prepare_subcatalog (tstring : String)
  | create_forecast (model : ModelF) (tstring : String)
  | compute (test : Evaluation) (kwargs : ComputeKwargs)
deriving DecidableEq, Repr

/-- Method name bound by a task, as in the source `Task(instance=.., method=..)`. -/
def Task.method : Task → String
  | .prepare_subcatalog _ => "prepare_subcatalog"
  | .create_forecast _ _ => "create_forecast"
  | .compute _ _ => "compute"

/-- An fecsep experiment, restricted to the state read by `prepare_tasks`:
ordered time windows, models, tests, and the run folder that roots the
precomputed `_paths` mapping. -/
structure ExperimentF where
  timewindows : List TimeWindow
  models : List ModelF
  tests : List Evaluation
  runFolder : String
deriving Repr

/-- Embedding of `Experiment.prepare_paths`: the catalog path of a window,
`target_paths[win]['catalog'] = join(run_folder, win, 'catalog', 'catalog.json')`. -/
def ExperimentF.catalogPath (e : ExperimentF) (win : String) : String :=
  e.runFolder ++ "/" ++ win ++ "/catalog/catalog.json"

/-- Embedding of `Experiment.prepare_paths`: the evaluation-result path,
`target_paths[win]['evaluations'][test][model]`.  The source stores these in
nested dicts keyed exactly by the experiment's test and model names; since
`prepare_tasks` only ever looks up names drawn from those same lists, the
mapping is embedded as a total function. -/
def ExperimentF.evalPath (e : ExperimentF) (win test model : String) : String :=
  e.runFolder ++ "/" ++ win ++ "/evaluations/" ++ test ++ "_" ++ model ++ ".json"

/-- Embedding of `Experiment.get_model`: first model whose name equals the
argument, `None` otherwise (the source loop simply falls through).  The
argument is an `Option` because call sites pass `test.ref_model`, which may be
unset. -/
def ExperimentF.get_model (e : ExperimentF) (name : Option String) : Option ModelF :=
  e.models.find? (fun m => some m.name == name)

/-- The Discrete-Absolute `compute` task constructed at lines 512-520 of
`fecsep/experiment.py`. -/
def mkDiscreteAbsolute (e : ExperimentF) (time_str : String) (m : ModelF)
    (t : Evaluation) : Task :=
  .compute t
    { timewindow := .single time_str
      catalog := .single (e.catalogPath time_str)
      model := m
      ref_model := none
      path := e.evalPath time_str t.name m.name }

/-- The Discrete-Comparative `compute` task constructed at lines 527-536 of
`fecsep/experiment.py`; its reference model is whatever `get_model` returns. -/
def mkDiscreteComparative (e : ExperimentF) (time_str : String) (m : ModelF)
    (t : Evaluation) : Task :=
  .compute t
    { timewindow := .single time_str
      catalog := .single (e.catalogPath time_str)
      model := m
      ref_model := some (.one (e.get_model t.ref_model))
      path := e.evalPath time_str t.name m.name }

/-- The Sequential-Absolute `compute` task (lines 543-552): bound to all
window strings and catalogs, writing under the last window.  The source
indexes `timestrs[-1]`, which raises on an empty window list; the embedding
totalizes that corner with an empty-string default. -/
def mkSequentialAbsolute (e : ExperimentF) (m : ModelF) (t : Evaluation) : Task :=
  let timestrs := e.timewindows.map timewindow2str
  .compute t
    { timewindow := .multi timestrs
      catalog := .multi (timestrs.map (fun w => e.catalogPath w))
      model := m
      ref_model := none
      path := e.evalPath (timestrs.getLastD "") t.name m.name }

/-- The Sequential-Comparative `compute` task (lines 557-567). -/
def mkSequentialComparative (e : ExperimentF) (m : ModelF) (t : Evaluation) : Task :=
  let timestrs := e.timewindows.map timewindow2str
  .compute t
    { timewindow := .multi timestrs
      catalog := .multi (timestrs.map (fun w => e.catalogPath w))
      model := m
      ref_model := some (.one (e.get_model t.ref_model))
      path := e.evalPath (timestrs.getLastD "") t.name m.name }

/-- The Discrete-Batch `compute` task (lines 572-581): last window only, with
`ref_model` bound to the entire model list. -/
def mkDiscreteBatch (e : ExperimentF) (m : ModelF) (t : Evaluation) : Task :=
  let timestr := timewindow2str (e.timewindows.getLastD ⟨0, 0⟩)
  .compute t
    { timewindow := .single timestr
      catalog := .single (e.catalogPath timestr)
      model := m
      ref_model := some (.all e.models)
      path := e.evalPath timestr t.name m.name }

/-- Embedding of `Experiment.prepare_tasks` (lines 484-584 of
`fecsep/experiment.py`), mirroring the imperative accumulation: each
`tasks.append(..)` becomes an append of a singleton to the accumulator. -/
def ExperimentF.prepare_tasks (e : ExperimentF) : List Task :=
  let tasks : List Task := []
  let tasks := e.timewindows.foldl (fun tasks time_i =>
    let time_str := timewindow2str time_i
    let tasks := tasks ++ [Task.prepare_subcatalog time_str]
    let tasks := e.models.foldl (fun tasks model_j =>
      let tasks := tasks ++ [Task.create_forecast model_j time_str]
      e.tests.foldl (fun tasks test_k =>
        if strContains test_k.type "Discrete" && strContains test_k.type "Absolute" then
          tasks ++ [mkDiscreteAbsolute e time_str model_j test_k]
        else tasks) tasks) tasks
    e.tests.foldl (fun tasks test_k =>
      if strContains test_k.type "Discrete" && strContains test_k.type "Comparative" then
        e.models.foldl (fun tasks model_j =>
          tasks ++ [mkDiscreteComparative e time_str model_j test_k]) tasks
      else tasks) tasks) tasks
  e.tests.foldl (fun tasks test_k =>
    if strContains test_k.type "Sequential" then
      if strContains test_k.type "Absolute" then
        e.models.foldl (fun tasks model_j =>
          tasks ++ [mkSequentialAbsolute e model_j test_k]) tasks
      else if strContains test_k.type "Comparative" then
        e.models.foldl (fun tasks model_j =>
          tasks ++ [mkSequentialComparative e model_j test_k]) tasks
      else tasks
    else if strContains test_k.type "Discrete" && strContains test_k.type "Batch" then
      e.models.foldl (fun tasks model_j =>
        tasks ++ [mkDiscreteBatch e model_j test_k]) tasks
    else tasks) tasks

/-- The per-window block of the task list in its structured form: one
catalog-preparation task, then per model (in list order) a forecast task
immediately followed by that model's Discrete-Absolute tasks, then the
window's Discrete-Comparative tasks. -/
def windowBlock (e : ExperimentF) (time_i : TimeWindow) : List Task :=
  let time_str := timewindow2str time_i
  Task.prepare_subcatalog time_str ::
    ((e.models.flatMap (fun m =>
        Task.create_forecast m time_str ::
          ((e.tests.filter (fun t =>
              strContains t.type "Discrete" && strContains t.type "Absolute")).map
            (mkDiscreteAbsolute e time_str m))))
      ++ (e.tests.flatMap (fun t =>
            if strContains t.type "Discrete" && strContains t.type "Comparative" then
              e.models.map (fun m => mkDiscreteComparative e time_str m t)
            else [])))

/-- The tasks a single test contributes to the tail (after-all-windows) part
of the task list: sequential tests once per model, then batch tests once per
model. -/
def tailFor (e : ExperimentF) (t : Evaluation) : List Task :=
  if strContains t.type "Sequential" then
    if strContains t.type "Absolute" then
      e.models.map (fun m => mkSequentialAbsolute e m t)
    else if strContains t.type "Comparative" then
      e.models.map (fun m => mkSequentialComparative e m t)
    else []
  else if strContains t.type "Discrete" && strContains t.type "Batch" then
    e.models.map (fun m => mkDiscreteBatch e m t)
  else []

/-- The structured characterization of the whole task list: window blocks in
chronological order, then the sequential/batch tail. -/
def tasksSpec (e : ExperimentF) : List Task :=
  (e.timewindows.flatMap (windowBlock e)) ++ (e.tests.flatMap (tailFor e))

/-- Well-formedness of an evaluation `type` tag, following the spec's data
model: the tag carries exactly one of the temporal markers Discrete/Sequential
and exactly one of the mode markers Absolute/Comparative/Batch. -/
def wellFormedType (ty : String) : Bool :=
  (strContains ty "Discrete" != strContains ty "Sequential") &&
  ((strContains ty "Absolute" && !strContains ty "Comparative" && !strContains ty "Batch") ||
   (!strContains ty "Absolute" && strContains ty "Comparative" && !strContains ty "Batch") ||
   (!strContains ty "Absolute" && !strContains ty "Comparative" && strContains ty "Batch"))

/-- Predicate of the Discrete-Absolute count property: a task whose bound
method is `compute` and whose evaluation's type carries both markers. -/
def isDiscreteAbsoluteCompute (task : Task) : Bool :=
  task.method == "compute" &&
    (match task with
     | .compute t _ => strContains t.type "Discrete" && strContains t.type "Absolute"
     | _ => false)

/-- Recognizes the `compute` tasks bound to a given evaluation. -/
def isComputeOfTest (t : Evaluation) : Task → Bool
  | .compute t' _ => decide (t' = t)
  | _ => false

/-- The single sequential task constructed for a model and a sequential
test, by the branch the test's type selects. -/
def seqTaskFor (e : ExperimentF) (t : Evaluation) (m : ModelF) : Task :=
  if strContains t.type "Absolute" then mkSequentialAbsolute e m t
  else mkSequentialComparative e m t

end Fecsep

namespace Gefe

/-- A scaled gridded forecast, as built by `Model.create_forecast` in
`gefe/models.py`: the external `func(self.path)` output is abstracted to the
identities `data`/`region`/`magnitudes`, and the `scale(time_horizon)` step is
abstracted to recording the window length in days (`decimal_year` float
arithmetic is out of scope of the embedding). -/
structure GForecast where
  name : Option String
  data : Nat
  region : Nat
  magnitudes : Nat
  start_time : Nat
  end_time : Nat
  scaled_by_days : Nat
deriving DecidableEq, Repr

/-- Replace-or-append assignment on an association list, mirroring Python
dict item assignment. -/
def dictInsert (l : List (Nat × GForecast)) (k : Nat) (v : GForecast) :
    List (Nat × GForecast) :=
  if (l.lookup k).isSome then
    l.map (fun p => if p.1 = k then (k, v) else p)
  else l ++ [(k, v)]

/-- A gefe model.  The external forecast-producing function `self.func` is
abstracted: its three outputs are the `funcData`/`funcRegion`/`funcMws`
identities (a pure function of the model), and `funcCalls` counts its
invocations.  `forecasts` is the per-test-date cache `self.forecasts`. -/
structure GModel where
  name : String
  path : String
  funcData : Nat
  funcRegion : Nat
  funcMws : Nat
  funcCalls : Nat
  forecasts : List (Nat × GForecast)
deriving DecidableEq, Repr

/-- Embedding of `Model.create_forecast` (lines 53-75 of `gefe/models.py`):
always invokes `self.func` (counter +1), builds the scaled forecast, caches it
under the `test_date` argument, and returns it together with the updated
model. -/
def GModel.create_forecast (m : GModel) (start_date test_date : Nat)
    (name : Option String) : GForecast × GModel :=
  let time_horizon := (test_date + 1) - start_date
  let forecast : GForecast :=
    { name := name
      data := m.funcData
      region := m.funcRegion
      magnitudes := m.funcMws
      start_time := start_date
      end_time := test_date
      scaled_by_days := time_horizon }
  (forecast,
   { m with
       funcCalls := m.funcCalls + 1
       forecasts := dictInsert m.forecasts test_date forecast })

/-- Provenance of a catalog object: held directly on the experiment, loaded
from the filtered-catalog file, or produced by the external catalog reader
(whose output is abstracted to its request parameters; the
latitude-range filter applied afterwards is recorded as a flag). -/
inductive CatalogSource
  | preset (id : Nat)
  | loadedFrom (path : String)
  | downloaded (reader : String) (catId : Option Nat) (startDT : Nat)
      (endDT : Option Nat) (minMw : Int) (latFiltered : Bool)
deriving DecidableEq, Repr

/-- A catalog value: its provenance plus the mutable `region` attribute that
`_prepare_test_func_args` overwrites. -/
structure GCatalog where
  source : CatalogSource
  region : Option Nat
deriving DecidableEq, Repr

/-- Positional `func_args` tuple of a prepared test: `(forecast, catalog)` for
absolute tests, `(forecast, reference_forecast, catalog)` for comparative
ones. -/
inductive FuncArgs
  | two (forecast : GForecast) (catalog : GCatalog)
  | three (forecast refForecast : GForecast) (catalog : GCatalog)
deriving DecidableEq, Repr

/-- A gefe `Test` object.  The statistical function and plotting function are
external collaborators abstracted to their names; `model`, `func_args` and
`path` are `none` on configured tests and populated on prepared ones. -/
structure GTest where
  name : String
  func : String
  func_args : Option FuncArgs
  func_kwargs : Option (List (String × String))
  plot_func : Option String
  plot_args : Option (List (String × String))
  model : Option GModel
  ref_model : Option String
  path : Option String
deriving DecidableEq, Repr

/-- Exceptions raised by the embedded gefe code paths. -/
inductive GErr
  | attributeError
  | keyError
  | typeError
  | valueError
  | lookupFailed
deriving DecidableEq, Repr

/-- The `exists` flag dictionary computed by `get_run_struct`. -/
structure ExistsFlags where
  models : Bool
  catalog : Bool
  evaluations : List (String × List (String × Bool))
deriving DecidableEq, Repr

/-- The `target_paths` dictionary computed by `get_run_struct`. -/
structure TargetPaths where
  models : Option String
  catalog : String
  evaluations : List (String × List (String × String))
  figures : List (String × String)
deriving DecidableEq, Repr

/-- A gefe experiment.  `run_folder`, `target_paths` and `exists_flags` are
instance attributes that do not exist before `get_run_struct` assigns them,
hence `Option` with `none` for "attribute not set"; likewise `catalog` is only
present after `set_catalog`, and `magnitude_range` after
`set_magnitude_range`.  The external `catalog_reader` is abstracted to its
name.  (The unread `run_results` attribute is not modelled.) -/
structure GExperiment where
  name : Option String
  start_date : Nat
  end_date : Nat
  test_date : Option Nat
  catalog_reader : Option String
  models : List GModel
  tests : List GTest
  run_folder : Option String
  target_paths : Option TargetPaths
  exists_flags : Option ExistsFlags
  catalog : Option GCatalog
  magnitude_range : Option (List Int)
deriving DecidableEq, Repr

/-- Embedding of gefe `Experiment.get_model`: first model with the given
name, `None` otherwise. -/
def GExperiment.get_model (e : GExperiment) (name : Option String) : Option GModel :=
  e.models.find? (fun m => some m.name == name)

/-- Embedding of `Experiment.get_forecast` (lines 217-224 of
`gefe/models.py`): look the experiment's `test_date` up in the model's
forecast cache; on a `KeyError` (including an unset `test_date`) fall through
to `create_forecast(self.start_date, self.end_date, name=model.name)`.  The
returned model carries the (possibly updated) cache and call counter. -/
def GExperiment.get_forecast (e : GExperiment) (m : GModel) : GForecast × GModel :=
  match e.test_date with
  | some d =>
    match m.forecasts.lookup d with
    | some forecast => (forecast, m)
    | none => m.create_forecast e.start_date e.end_date (some m.name)
  | none => m.create_forecast e.start_date e.end_date (some m.name)

/-- Directory/file creation with Python's `exist_ok` semantics on the
list-of-paths filesystem. -/
def makeDirs (fs : List String) (d : String) : List String :=
  if d ∈ fs then fs else fs ++ [d]

/-- Immediate directory listing on the list-of-paths filesystem: entries
under `d` that contain no further separator. -/
def listDir (fs : List String) (d : String) : List String :=
  fs.filterMap (fun p =>
    if (d ++ "/").toList.isPrefixOf p.toList then
      let rest := p.drop (d ++ "/").length
      if rest.toList.contains '/' then none else some rest
    else none)

/-- The value triple returned by a successful `get_run_struct`. -/
structure RunStruct where
  run_folder : String
  exists_flags : ExistsFlags
  target_paths : TargetPaths
deriving DecidableEq, Repr

/-- Embedding of `Experiment.get_run_struct` (lines 147-210 of
`gefe/models.py`).  The result carries the post-state (experiment and
filesystem) alongside the outcome: the `RuntimeError` raised when `test_date`
is unset leaves both untouched.  The `isoformat` default run name is
abstracted to the decimal print of the date. -/
def GExperiment.get_run_struct (e : GExperiment) (fs : List String)
    (run_name : Option String) :
    (GExperiment × List String) × Except String RunStruct :=
  match e.test_date with
  | none => ((e, fs), .error "Test date must be set before running experiment.")
  | some td =>
    let tests := e.tests.map (fun t => t.name)
    let models := e.models.map (fun m => m.name)
    let run_name := run_name.getD (toString td)
    let run_folder := "./results/" ++ run_name
    let folders := ["catalog", "evaluations", "figures"]
    let folder_paths := folders.map (fun folder => (folder, run_folder ++ "/" ++ folder))
    let fs := folder_paths.foldl (fun fs kv => makeDirs fs kv.2) fs
    let files := folder_paths.map (fun kv => (kv.1, listDir fs kv.2))
    let filesIn := fun folder => (files.lookup folder).getD []
    let existsF : ExistsFlags :=
      { models := false
        catalog := !(filesIn "catalog").isEmpty
        evaluations := tests.map (fun test => (test, models.map (fun model =>
          (model, (filesIn "evaluations").any
            (fun file => strContains file (test ++ "_" ++ model)))))) }
    let target_paths : TargetPaths :=
      { models := none
        catalog := run_folder ++ "/catalog/catalog.json"
        evaluations := tests.map (fun test => (test, models.map (fun model =>
          (model, run_folder ++ "/evaluations/" ++ test ++ "_" ++ model))))
        figures := tests.map (fun test => (test, run_folder ++ "/figures/" ++ test)) }
    let e := { e with
                 run_folder := some run_folder
                 target_paths := some target_paths
                 exists_flags := some existsF }
    ((e, fs),
     .ok { run_folder := run_folder, exists_flags := existsF,
           target_paths := target_paths })

/-- Embedding of `Experiment.get_catalog` (lines 255-288 of
`gefe/models.py`): return the `catalog` attribute when present; otherwise load
the already-filtered catalog file when it exists (and cache it via
`set_catalog`); otherwise invoke the external catalog reader and
latitude-filter the result (again caching it).  Missing attributes
(`target_paths`, `magnitude_range`) raise `AttributeError`; an empty
magnitude range raises `ValueError`; an unset `catalog_reader` raises
`TypeError` when called. -/
def GExperiment.get_catalog (e : GExperiment) (fs : List String) :
    Except GErr (GCatalog × GExperiment) :=
  match e.catalog with
  | some c => .ok (c, e)
  | none =>
    match e.target_paths with
    | none => .error .attributeError
    | some tp =>
      if tp.catalog ∈ fs then
        let c : GCatalog := { source := .loadedFrom tp.catalog, region := none }
        .ok (c, { e with catalog := some c })
      else
        match e.magnitude_range with
        | none => .error .attributeError
        | some mr =>
          match mr.min? with
          | none => .error .valueError
          | some min_mag =>
            match e.catalog_reader with
            | none => .error .typeError
            | some reader =>
              let c : GCatalog :=
                { source := .downloaded reader e.test_date e.start_date
                    e.test_date min_mag true
                  region := none }
              .ok (c, { e with catalog := some c })

/-- Replace the (uniquely named) model `m` in the experiment's model list,
mirroring Python's in-place mutation of the shared `Model` object. -/
def GExperiment.updateModel (e : GExperiment) (m : GModel) : GExperiment :=
  { e with models := e.models.map (fun x => if x.name = m.name then m else x) }

/-- Embedding of `Experiment._prepare_test_func_args` (lines 329-338 of
`gefe/models.py`).  The subject model is addressed by name, matching the
source's object reference under the experiment's distinct-model-name
convention.  A comparative test whose `ref_model` resolves to no model makes
`get_forecast(None)` raise `AttributeError` in the source. -/
def GExperiment._prepare_test_func_args (e : GExperiment) (fs : List String)
    (test : GTest) (mname : String) : Except GErr (FuncArgs × GExperiment) :=
  match e.get_model (some mname) with
  | none => .error .lookupFailed
  | some model =>
    let fm := e.get_forecast model
    let forecast := fm.1
    let e := e.updateModel fm.2
    match e.get_catalog fs with
    | .error err => .error err
    | .ok (catalog0, e) =>
      let catalog := { catalog0 with region := some forecast.region }
      match test.ref_model with
      | some rname =>
        match e.get_model (some rname) with
        | none => .error .attributeError
        | some refm =>
          let rm := e.get_forecast refm
          let e := e.updateModel rm.2
          .ok (.three forecast rm.1 catalog, e)
      | none => .ok (.two forecast catalog, e)

/-- One iteration body of `prepare_all_tests` for a non-skipped (model, test)
pair: prepare the runtime arguments, resolve the result path from
`self.target_paths` (raising `AttributeError`/`KeyError` when absent), and
build the prepared `Test` bound to the current state of the subject model. -/
def prepareOne (e : GExperiment) (fs : List String) (test : GTest)
    (mname : String) : Except GErr (GTest × GExperiment) :=
  match e._prepare_test_func_args fs test mname with
  | .error err => .error err
  | .ok (args, e) =>
    match e.target_paths with
    | none => .error .attributeError
    | some tp =>
      match tp.evaluations.lookup test.name with
      | none => .error .keyError
      | some row =>
        match row.lookup mname with
        | none => .error .keyError
        | some path =>
          match e.get_model (some mname) with
          | none => .error .lookupFailed
          | some m =>
            .ok ({ name := test.name
                   func := test.func
                   func_args := some args
                   func_kwargs := test.func_kwargs
                   plot_func := test.plot_func
                   plot_args := test.plot_args
                   model := some m
                   ref_model := test.ref_model
                   path := some path }, e)

/-- The inner-loop body of `prepare_all_tests` for one test: skip the pair
when `test.ref_model == model.name`, otherwise append the prepared test; a
raised exception short-circuits the rest of the loop. -/
def prepStep (fs : List String) (mname : String)
    (st : Except GErr (List GTest × GExperiment)) (test : GTest) :
    Except GErr (List GTest × GExperiment) :=
  match st with
  | .error err => .error err
  | .ok (acc, e) =>
    if test.ref_model == some mname then .ok (acc, e)
    else
      match prepareOne e fs test mname with
      | .error err => .error err
      | .ok (t, e') => .ok (acc ++ [t], e')

/-- The outer-loop body of `prepare_all_tests` for one model: run the test
loop on the current state. -/
def modelLoop (fs : List String)
    (st : Except GErr (List GTest × GExperiment)) (mname : String) :
    Except GErr (List GTest × GExperiment) :=
  match st with
  | .error err => .error err
  | .ok (acc, e) => e.tests.foldl (prepStep fs mname) (.ok (acc, e))

/-- Embedding of `Experiment.prepare_all_tests` (lines 301-327 of
`gefe/models.py`): for each model (in list order) and each test, skip the
pair when `test.ref_model == model.name`, otherwise append the prepared test.
State (forecast caches, invocation counters, cached catalog) threads through
the loop exactly as the source's in-place mutations do. -/
def GExperiment.prepare_all_tests (e0 : GExperiment) (fs : List String) :
    Except GErr (List GTest × GExperiment) :=
  (e0.models.map (fun m => m.name)).foldl (modelLoop fs) (.ok ([], e0))

/-- The prepared-test list of a `prepare_all_tests` outcome (empty when the
run raised). -/
def resultTests (r : Except GErr (List GTest × GExperiment)) : List GTest :=
  match r with
  | .ok (l, _) => l
  | .error _ => []

/-- The forecast `create_forecast` builds for model "B" on the concrete
`prepare_all_tests` run below. -/
def fcB : GForecast :=
  { name := some "B", data := 4, region := 5, magnitudes := 6,
    start_time := 0, end_time := 10, scaled_by_days := 11 }

/-- The forecast `create_forecast` builds for the reference model "A" on the
concrete `prepare_all_tests` run below. -/
def fcA : GForecast :=
  { name := some "A", data := 1, region := 2, magnitudes := 3,
    start_time := 0, end_time := 10, scaled_by_days := 11 }

end Gefe

namespace Registry

/-- An argument passed to a registry getter, by the shape
`BaseFileRegistry._parse_arg` dispatches on: a list/tuple (a time-window
pair), a plain string, or some other object carrying an optional `.name`
attribute and an optional `.__name__` attribute. -/
inductive RegArg
  | pair (tw : TimeWindow)
  | str (s : String)
  | obj (name : Option String) (dunder : Option String)
deriving DecidableEq, Repr

/-- Exceptions raised during registry path resolution: the `_parse_arg`
fall-through `Exception("Arg is not found")`, a missing dict key, and the
`TypeError` of indexing/joining a non-dict value. -/
inductive RegErr
  | argNotFound
  | keyError
  | typeError
deriving DecidableEq, Repr

/-- Embedding of `BaseFileRegistry._parse_arg` (lines 22-33 of
`floatcsep/registry.py`): list/tuple first, then `str`, then the `.name`
attribute, then `.__name__`, otherwise raise. -/
def parse_arg : RegArg → Except RegErr String
  | .pair tw => .ok (timewindow2str tw)
  | .str s => .ok s
  | .obj (some n) _ => .ok n
  | .obj none (some f) => .ok f
  | .obj none none => .error .argNotFound

/-- The nested path dictionaries held by the registries: inner nodes are
dicts keyed by strings, leaves are path strings. -/
inductive PathTree
  | leaf (s : String)
  | node (entries : List (String × PathTree))

/-- The resolution loop shared by the registry getters: parse each argument
in turn and index the current value with it.  Indexing a string raises
`TypeError`; a missing key raises `KeyError`. -/
def resolveFrom : PathTree → List RegArg → Except RegErr PathTree
  | t, [] => .ok t
  | t, a :: rest =>
    match parse_arg a with
    | .error e => .error e
    | .ok key =>
      match t with
      | .leaf _ => .error .typeError
      | .node es =>
        match es.lookup key with
        | some v => resolveFrom v rest
        | none => .error .keyError

/-- Modelled from the spec: resolution of an already-normalized key sequence
through the precomputed tree, "failing with a lookup error if any key segment
is absent".  This is the spec-side description that the source's interleaved
loop is proved to refine. -/
def lookupPath : PathTree → List String → Except RegErr PathTree
  | t, [] => .ok t
  | .leaf _, _ :: _ => .error .typeError
  | .node es, k :: rest =>
    match es.lookup k with
    | some v => lookupPath v rest
    | none => .error .keyError

/-- Modelled from the spec: normalization of a whole key sequence, "each
normalized via a single dispatch rule". -/
def normalizeKeys (args : List RegArg) : Except RegErr (List String) :=
  args.mapM parse_arg

/-- A lightweight stand-in for the floatcsep model/evaluation objects passed
to `build_tree`, which reads only their `name` attribute. -/
structure Named where
  name : String
deriving DecidableEq, Repr

/-- The floatcsep `ExperimentRegistry` state: working directory, run
directory, and the three path dictionaries filled in by `build_tree`. -/
structure ExperimentRegistry where
  workdir : String
  run_dir : String
  results : List (String × PathTree)
  test_catalogs : List (String × PathTree)
  figures : List (String × PathTree)
  repr_config : String

/-- Embedding of `BaseFileRegistry.abs`: join the path components onto the
working directory.  The source additionally applies
`normpath(abspath(..))`, which is the identity on an already-absolute,
already-normalized working directory. -/
def ExperimentRegistry.abs (reg : ExperimentRegistry) (ps : List String) : String :=
  ps.foldl (fun a b => a ++ "/" ++ b) reg.workdir

/-- Embedding of `ExperimentRegistry.get_result` (lines 268-273 of
`floatcsep/registry.py`): walk `self.results` with the parsed arguments, then
return `self.abs(self.run_dir, val)`; joining a still-nested dict raises
`TypeError`. -/
def ExperimentRegistry.get_result (reg : ExperimentRegistry)
    (args : List RegArg) : Except RegErr String :=
  match resolveFrom (.node reg.results) args with
  | .ok (.leaf v) => .ok (reg.abs [reg.run_dir, v])
  | .ok (.node _) => .error .typeError
  | .error e => .error e

/-- Embedding of `ExperimentRegistry.get_test_catalog` (lines 275-280). -/
def ExperimentRegistry.get_test_catalog (reg : ExperimentRegistry)
    (args : List RegArg) : Except RegErr String :=
  match resolveFrom (.node reg.test_catalogs) args with
  | .ok (.leaf v) => .ok (reg.abs [reg.run_dir, v])
  | .ok (.node _) => .error .typeError
  | .error e => .error e

/-- Embedding of `ExperimentRegistry.get_figure` (lines 282-287). -/
def ExperimentRegistry.get_figure (reg : ExperimentRegistry)
    (args : List RegArg) : Except RegErr String :=
  match resolveFrom (.node reg.figures) args with
  | .ok (.leaf v) => .ok (reg.abs [reg.run_dir, v])
  | .ok (.node _) => .error .typeError
  | .error e => .error e

/-- The `self.__dict__` view walked by `ExperimentRegistry.get` (lines
261-266): the registry's own attributes, with the string attributes as leaves
and the three path dictionaries as nested nodes.  (The `forecast_registries`
attribute, which holds registry objects rather than paths, is outside the
path-tree embedding.) -/
def ExperimentRegistry.dictEntries (reg : ExperimentRegistry) :
    List (String × PathTree) :=
  [("workdir", .leaf reg.workdir),
   ("run_dir", .leaf reg.run_dir),
   ("results", .node reg.results),
   ("test_catalogs", .node reg.test_catalogs),
   ("figures", .node reg.figures),
   ("repr_config", .leaf reg.repr_config)]

/-- Embedding of `ExperimentRegistry.get`. -/
def ExperimentRegistry.get (reg : ExperimentRegistry)
    (args : List RegArg) : Except RegErr String :=
  match resolveFrom (.node reg.dictEntries) args with
  | .ok (.leaf v) => .ok (reg.abs [reg.run_dir, v])
  | .ok (.node _) => .error .typeError
  | .error e => .error e

/-- Absolute-path test: the path starts with the separator. -/
def isAbsolutePath (s : String) : Bool :=
  decide (s.toList.headD ' ' = '/')

/-- Embedding of `ExperimentRegistry.build_tree` (lines 297-364 of
`floatcsep/registry.py`): map windows to canonical strings, create the
per-window `catalog`/`evaluations`/`figures` directories with `exist_ok`
semantics, and overwrite the three path dictionaries with the freshly
computed trees.  Returns the updated registry and filesystem. -/
def ExperimentRegistry.build_tree (reg : ExperimentRegistry) (fs : List String)
    (timewindows : List TimeWindow) (models tests : List Named) :
    ExperimentRegistry × List String :=
  let windows := timewindows.map timewindow2str
  let modelNames := models.map (fun m => m.name)
  let testNames := tests.map (fun t => t.name)
  let run_folder := reg.run_dir
  let subfolders := ["catalog", "evaluations", "figures"]
  let fs := windows.foldl (fun fs win =>
    subfolders.foldl (fun fs folder =>
      Gefe.makeDirs fs (reg.abs [run_folder, win, folder])) fs) fs
  let results := windows.map (fun win =>
    (win, PathTree.node (testNames.map (fun test =>
      (test, PathTree.node (modelNames.map (fun model =>
        (model,
         PathTree.leaf (win ++ "/evaluations/" ++ test ++ "_" ++ model ++ ".json")))))))))
  let test_catalogs := windows.map (fun win =>
    (win, PathTree.leaf (win ++ "/catalog/test_catalog.json")))
  let figures :=
    [("main_catalog_map", PathTree.leaf "catalog"),
     ("main_catalog_time", PathTree.leaf "events")]
    ++ windows.map (fun win =>
        (win, PathTree.node (
          (testNames.map (fun test => (test, PathTree.leaf (win ++ "/figures/" ++ test))))
          ++ [("catalog", PathTree.leaf (win ++ "/figures/catalog_map")),
              ("magnitude_time", PathTree.leaf (win ++ "/figures/catalog_time")),
              ("forecasts", PathTree.node (modelNames.map (fun model =>
                (model, PathTree.leaf (win ++ "/figures/forecast_" ++ model)))))])))
  ({ reg with results := results, test_catalogs := test_catalogs, figures := figures },
   fs)

end Registry

namespace Fecsep

/-- Scenario configuration: two time windows, one model, one
Discrete-Absolute test. -/
def cfgScenario1 : ExperimentF :=
  { timewindows := [⟨0, 10⟩, ⟨10, 20⟩]
    models := [⟨"m1"⟩]
    tests := [⟨"n_test", "Discrete Absolute", none⟩]
    runFolder := "/results/run" }

/-- A Discrete-Comparative evaluation referencing model "A". -/
def compTestAB : Evaluation :=
  ⟨"ttest", "Discrete Comparative", some "A"⟩

/-- Scenario configuration: two time windows, two models, one
Discrete-Comparative test referencing model "A". -/
def cfgTwoModelsComp : ExperimentF :=
  { timewindows := [⟨0, 10⟩, ⟨10, 20⟩]
    models := [⟨"A"⟩, ⟨"B"⟩]
    tests := [compTestAB]
    runFolder := "/results/run" }

/-- Configuration whose single Comparative test names a `ref_model` ("A")
that matches no model in the experiment. -/
def cfgUnresolvedRef : ExperimentF :=
  { timewindows := [⟨0, 10⟩]
    models := [⟨"B"⟩]
    tests := [compTestAB]
    runFolder := "/results/run" }

/-- Scenario configuration: three time windows, one model, one
Sequential-Absolute test. -/
def cfgSeq3 : ExperimentF :=
  { timewindows := [⟨0, 10⟩, ⟨10, 20⟩, ⟨20, 30⟩]
    models := [⟨"m1"⟩]
    tests := [⟨"seq", "Sequential Absolute", none⟩]
    runFolder := "/results/run" }

/-- Configuration with two windows, two models and one Discrete-Batch test. -/
def cfgBatch : ExperimentF :=
  { timewindows := [⟨0, 10⟩, ⟨10, 20⟩]
    models := [⟨"A"⟩, ⟨"B"⟩]
    tests := [⟨"batch", "Discrete Batch", none⟩]
    runFolder := "/results/run" }

end Fecsep

namespace Gefe

/-- A concrete gefe model ("A") with an empty forecast cache. -/
def modelA : GModel :=
  { name := "A", path := "models/a.csv", funcData := 1, funcRegion := 2,
    funcMws := 3, funcCalls := 0, forecasts := [] }

/-- A concrete gefe model ("B") with an empty forecast cache. -/
def modelB : GModel :=
  { name := "B", path := "models/b.csv", funcData := 4, funcRegion := 5,
    funcMws := 6, funcCalls := 0, forecasts := [] }

/-- A configured comparative test referencing model "A". -/
def tConfigAB : GTest :=
  { name := "t", func := "paired_t_test", func_args := none, func_kwargs := none,
    plot_func := none, plot_args := none, model := none,
    ref_model := some "A", path := none }

/-- Target paths for the concrete `prepare_all_tests` run. -/
def tpPrep : TargetPaths :=
  { models := none
    catalog := "./results/x/catalog/catalog.json"
    evaluations := [("t", [("A", "./results/x/evaluations/t_A"),
                           ("B", "./results/x/evaluations/t_B")])]
    figures := [("t", "./results/x/figures/t")] }

/-- The catalog held by the concrete experiment. -/
def catPrep : GCatalog := { source := .preset 0, region := none }

/-- A concrete experiment on which `prepare_all_tests` succeeds: models "A"
and "B" and one comparative test referencing "A". -/
def expPrep : GExperiment :=
  { name := some "exp", start_date := 0, end_date := 10, test_date := some 10,
    catalog_reader := none, models := [modelA, modelB], tests := [tConfigAB],
    run_folder := none, target_paths := some tpPrep, exists_flags := none,
    catalog := some catPrep, magnitude_range := none }

/-- Model "B" as bound into the prepared test of the concrete run: generator
invoked once, forecast cached for test date 10. -/
def preparedB : GModel :=
  { name := "B", path := "models/b.csv", funcData := 4, funcRegion := 5,
    funcMws := 6, funcCalls := 1, forecasts := [(10, fcB)] }

/-- The single prepared test of the concrete `prepare_all_tests` run: model
"B" against reference "A". -/
def preparedTB : GTest :=
  { name := "t", func := "paired_t_test"
    func_args := some (.three fcB fcA { source := .preset 0, region := some 5 })
    func_kwargs := none, plot_func := none, plot_args := none
    model := some preparedB, ref_model := some "A"
    path := some "./results/x/evaluations/t_B" }

/-- The outcome of the concrete `prepare_all_tests` run (projected out of the
`Except`). -/
def expPrepResult : List GTest × GExperiment :=
  (expPrep.prepare_all_tests []).toOption.getD ([], expPrep)

/-- The forecast cached for test date 7 in the cached-model scenario. -/
def cachedFc : GForecast :=
  { name := some "m", data := 9, region := 8, magnitudes := 7,
    start_time := 0, end_time := 7, scaled_by_days := 8 }

/-- A model whose cache already holds the forecast for test date 7 and whose
generator has been invoked 3 times. -/
def cachedModel : GModel :=
  { name := "m", path := "models/m.csv", funcData := 9, funcRegion := 8,
    funcMws := 7, funcCalls := 3, forecasts := [(7, cachedFc)] }

/-- Existence flags reporting every output artifact absent. -/
def allAbsentFlags : ExistsFlags :=
  { models := false, catalog := false, evaluations := [("t", [("m", false)])] }

/-- An experiment whose registry flags report all outputs absent while the
cached model already holds the forecast for the current test date. -/
def expCached : GExperiment :=
  { name := none, start_date := 0, end_date := 7, test_date := some 7,
    catalog_reader := none, models := [cachedModel], tests := [],
    run_folder := none, target_paths := none,
    exists_flags := some allAbsentFlags, catalog := none,
    magnitude_range := none }

/-- An experiment like `expCached` but whose test date (9) misses the cache. -/
def expMiss : GExperiment :=
  { name := none, start_date := 0, end_date := 7, test_date := some 9,
    catalog_reader := none, models := [cachedModel], tests := [],
    run_folder := none, target_paths := none,
    exists_flags := some allAbsentFlags, catalog := none,
    magnitude_range := none }

/-- An experiment whose test date is unset. -/
def expNoDate : GExperiment :=
  { name := some "e", start_date := 0, end_date := 10, test_date := none,
    catalog_reader := none, models := [modelA], tests := [tConfigAB],
    run_folder := none, target_paths := none, exists_flags := none,
    catalog := none, magnitude_range := none }

/-- An experiment whose test date is set (to 5). -/
def expWithDate : GExperiment :=
  { name := some "e", start_date := 0, end_date := 10, test_date := some 5,
    catalog_reader := none, models := [modelA], tests := [tConfigAB],
    run_folder := none, target_paths := none, exists_flags := none,
    catalog := none, magnitude_range := none }

end Gefe

namespace Registry

/-- A concrete registry with one window, one test and one model in its
precomputed trees. -/
def regW : ExperimentRegistry :=
  { workdir := "/work"
    run_dir := "results"
    results := [("0_10", .node [("t", .node [("m", .leaf "0_10/evaluations/t_m.json")])])]
    test_catalogs := [("0_10", .leaf "0_10/catalog/test_catalog.json")]
    figures := [("0_10", .node [("t", .leaf "0_10/figures/t")])]
    repr_config := "repr_config.yml" }

/-- A registry with empty trees, as before any `build_tree` call. -/
def regEmpty : ExperimentRegistry :=
  { workdir := "/work"
    run_dir := "results"
    results := []
    test_catalogs := []
    figures := []
    repr_config := "repr_config.yml" }

end Registry

end FloatCSEP

namespace FloatCSEP

/-! Generic list lemmas used to relate the imperative accumulation of the
schedulers to their structured characterizations. -/

theorem foldl_app {α β : Type} {f : List β → α → List β} {g : α → List β}
    (h : ∀ acc x, f acc x = acc ++ g x) :
    ∀ (l : List α) (init : List β), l.foldl f init = init ++ l.flatMap g := by
  intro l
  induction l with
  | nil => intro init; simp
  | cons x xs ih =>
    intro init
    rw [List.foldl_cons, h, ih, List.flatMap_cons, List.append_assoc]

theorem flatMap_if_singleton {α β : Type} (p : α → Bool) (f : α → β) :
    ∀ l : List α,
      (l.flatMap fun x => if p x then [f x] else []) = (l.filter p).map f := by
  intro l
  induction l with
  | nil => rfl
  | cons x xs ih => cases hp : p x <;> simp [List.filter_cons, hp, ih]

theorem flatMap_singleton' {α β : Type} (f : α → β) :
    ∀ l : List α, (l.flatMap fun x => [f x]) = l.map f := by
  intro l
  induction l with
  | nil => rfl
  | cons x xs ih => simp [ih]

theorem countP_flatMap {α β : Type} (p : β → Bool) (g : α → List β) :
    ∀ l : List α,
      (l.flatMap g).countP p = (l.map (fun x => (g x).countP p)).sum := by
  intro l
  induction l with
  | nil => rfl
  | cons x xs ih => simp [List.countP_append, ih]

theorem sum_map_const {α : Type} (c : Nat) :
    ∀ l : List α, (l.map fun _ => c).sum = l.length * c := by
  intro l
  induction l with
  | nil => simp
  | cons x xs ih => simp [ih, Nat.succ_mul, Nat.add_comm]

theorem filter_flatMap {α β : Type} (q : β → Bool) (g : α → List β) :
    ∀ l : List α, (l.flatMap g).filter q = l.flatMap (fun x => (g x).filter q) := by
  intro l
  induction l with
  | nil => rfl
  | cons x xs ih => simp [List.filter_append, ih]

theorem flatMap_filter_nil {α β : Type} {q : β → Bool} {g : α → List β}
    {l : List α} (h : ∀ x ∈ l, (g x).filter q = []) :
    (l.flatMap g).filter q = [] := by
  induction l with
  | nil => rfl
  | cons x xs ih =>
    rw [List.flatMap_cons, List.filter_append, h x (List.mem_cons_self x xs),
      List.nil_append]
    exact ih (fun y hy => h y (List.mem_cons_of_mem x hy))

theorem flatMap_filter_unique {α β : Type} [DecidableEq α]
    {q : β → Bool} {g : α → List β} {t : α}
    (hother : ∀ x, x ≠ t → (g x).filter q = [])
    (hself : (g t).filter q = g t) :
    ∀ l : List α, l.count t = 1 → (l.flatMap g).filter q = g t := by
  intro l
  induction l with
  | nil => intro h; simp at h
  | cons x xs ih =>
    intro hc
    rw [List.flatMap_cons, List.filter_append]
    by_cases hx : x = t
    · subst hx
      have hz : xs.count x = 0 := by
        rw [List.count_cons_self] at hc
        omega
      have hnil : (xs.flatMap g).filter q = [] := by
        refine flatMap_filter_nil (fun y hy => hother y ?_)
        intro hyt
        subst hyt
        exact absurd (List.count_eq_zero.mp hz) (fun h => h hy)
      rw [hself, hnil, List.append_nil]
    · rw [hother x hx, List.nil_append]
      refine ih ?_
      rwa [List.count_cons_of_ne (fun h => hx h.symm)] at hc

namespace Fecsep

/-! Structured characterization of `prepare_tasks`: each nested imperative
fold is rewritten into its append/flatMap form, innermost first. -/

theorem da_fold (e : ExperimentF) (time_str : String) (model_j : ModelF)
    (init : List Task) :
    e.tests.foldl (fun tasks test_k =>
        if strContains test_k.type "Discrete" && strContains test_k.type "Absolute" then
          tasks ++ [mkDiscreteAbsolute e time_str model_j test_k]
        else tasks) init
      = init ++ (e.tests.filter (fun t =>
          strContains t.type "Discrete" && strContains t.type "Absolute")).map
          (mkDiscreteAbsolute e time_str model_j) := by
  rw [foldl_app (g := fun t =>
        if strContains t.type "Discrete" && strContains t.type "Absolute" then
          [mkDiscreteAbsolute e time_str model_j t] else [])
      (fun acc x => by
        cases h : strContains x.type "Discrete" && strContains x.type "Absolute" <;>
          simp [h]),
    flatMap_if_singleton]

theorem model_fold (e : ExperimentF) (time_str : String) (init : List Task) :
    e.models.foldl (fun tasks model_j =>
        let tasks := tasks ++ [Task.create_forecast model_j time_str]
        e.tests.foldl (fun tasks test_k =>
          if strContains test_k.type "Discrete" && strContains test_k.type "Absolute" then
            tasks ++ [mkDiscreteAbsolute e time_str model_j test_k]
          else tasks) tasks) init
      = init ++ e.models.flatMap (fun m =>
          Task.create_forecast m time_str ::
            ((e.tests.filter (fun t =>
                strContains t.type "Discrete" && strContains t.type "Absolute")).map
              (mkDiscreteAbsolute e time_str m))) := by
  rw [foldl_app (g := fun m =>
        Task.create_forecast m time_str ::
          ((e.tests.filter (fun t =>
              strContains t.type "Discrete" && strContains t.type "Absolute")).map
            (mkDiscreteAbsolute e time_str m)))
      (fun acc m => by
        show e.tests.foldl _ (acc ++ [Task.create_forecast m time_str]) = _
        rw [da_fold]
        simp)]

theorem comp_fold (e : ExperimentF) (time_str : String) (init : List Task) :
    e.tests.foldl (fun tasks test_k =>
        if strContains test_k.type "Discrete" && strContains test_k.type "Comparative" then
          e.models.foldl (fun tasks model_j =>
            tasks ++ [mkDiscreteComparative e time_str model_j test_k]) tasks
        else tasks) init
      = init ++ e.tests.flatMap (fun t =>
          if strContains t.type "Discrete" && strContains t.type "Comparative" then
            e.models.map (fun m => mkDiscreteComparative e time_str m t)
          else []) := by
  rw [foldl_app (g := fun t =>
        if strContains t.type "Discrete" && strContains t.type "Comparative" then
          e.models.map (fun m => mkDiscreteComparative e time_str m t)
        else [])
      (fun acc t => by
        cases h : strContains t.type "Discrete" && strContains t.type "Comparative" <;>
          simp only [h, Bool.false_eq_true, if_false, if_true]
        · simp
        · rw [foldl_app (g := fun m => [mkDiscreteComparative e time_str m t])
            (fun a m => rfl), flatMap_singleton'])]

theorem win_fold (e : ExperimentF) (init : List Task) :
    e.timewindows.foldl (fun tasks time_i =>
        let time_str := timewindow2str time_i
        let tasks := tasks ++ [Task.prepare_subcatalog time_str]
        let tasks := e.models.foldl (fun tasks model_j =>
          let tasks := tasks ++ [Task.create_forecast model_j time_str]
          e.tests.foldl (fun tasks test_k =>
            if strContains test_k.type "Discrete" && strContains test_k.type "Absolute" then
              tasks ++ [mkDiscreteAbsolute e time_str model_j test_k]
            else tasks) tasks) tasks
        e.tests.foldl (fun tasks test_k =>
          if strContains test_k.type "Discrete" && strContains test_k.type "Comparative" then
            e.models.foldl (fun tasks model_j =>
              tasks ++ [mkDiscreteComparative e time_str model_j test_k]) tasks
          else tasks) tasks) init
      = init ++ e.timewindows.flatMap (windowBlock e) := by
  rw [foldl_app (g := windowBlock e)
      (fun acc w => by
        show e.tests.foldl _
            (e.models.foldl _ (acc ++ [Task.prepare_subcatalog (timewindow2str w)])) = _
        rw [model_fold, comp_fold]
        simp only [windowBlock, List.append_assoc, List.cons_append, List.nil_append,
          List.singleton_append])]

theorem tail_fold (e : ExperimentF) (init : List Task) :
    e.tests.foldl (fun tasks test_k =>
        if strContains test_k.type "Sequential" then
          if strContains test_k.type "Absolute" then
            e.models.foldl (fun tasks model_j =>
              tasks ++ [mkSequentialAbsolute e model_j test_k]) tasks
          else if strContains test_k.type "Comparative" then
            e.models.foldl (fun tasks model_j =>
              tasks ++ [mkSequentialComparative e model_j test_k]) tasks
          else tasks
        else if strContains test_k.type "Discrete" && strContains test_k.type "Batch" then
          e.models.foldl (fun tasks model_j =>
            tasks ++ [mkDiscreteBatch e model_j test_k]) tasks
        else tasks) init
      = init ++ e.tests.flatMap (tailFor e) := by
  rw [foldl_app (g := tailFor e)
      (fun acc t => by
        simp only [tailFor]
        cases h1 : strContains t.type "Sequential" <;>
          simp only [h1, Bool.false_eq_true, if_false, if_true]
        · cases h2 : strContains t.type "Discrete" && strContains t.type "Batch" <;>
            simp only [h2, Bool.false_eq_true, if_false, if_true]
          · simp
          · rw [foldl_app (g := fun m => [mkDiscreteBatch e m t])
              (fun a m => rfl), flatMap_singleton']
        · cases h2 : strContains t.type "Absolute" <;>
            simp only [h2, Bool.false_eq_true, if_false, if_true]
          · cases h3 : strContains t.type "Comparative" <;>
              simp only [h3, Bool.false_eq_true, if_false, if_true]
            · simp
            · rw [foldl_app (g := fun m => [mkSequentialComparative e m t])
                (fun a m => rfl), flatMap_singleton']
          · rw [foldl_app (g := fun m => [mkSequentialAbsolute e m t])
              (fun a m => rfl), flatMap_singleton'])]

theorem prepare_tasks_eq (e : ExperimentF) : e.prepare_tasks = tasksSpec e := by
  show e.tests.foldl _ (e.timewindows.foldl _ []) = _
  rw [win_fold, tail_fold, tasksSpec, List.nil_append]

/-! Pointwise computation lemmas for the task predicates. -/

theorem countP_map' {α β : Type} (p : β → Bool) (f : α → β) :
    ∀ l : List α, (l.map f).countP p = l.countP (fun x => p (f x)) := by
  intro l
  induction l with
  | nil => rfl
  | cons x xs ih => simp [List.countP_cons, ih]

theorem isDAC_sub (s : String) :
    isDiscreteAbsoluteCompute (Task.prepare_subcatalog s) = false := rfl

theorem isDAC_cf (m : ModelF) (s : String) :
    isDiscreteAbsoluteCompute (Task.create_forecast m s) = false := rfl

theorem isDAC_compute (t : Evaluation) (kw : ComputeKwargs) :
    isDiscreteAbsoluteCompute (Task.compute t kw)
      = (strContains t.type "Discrete" && strContains t.type "Absolute") := by
  simp [isDiscreteAbsoluteCompute, Task.method]

theorem isCOT_sub (t : Evaluation) (s : String) :
    isComputeOfTest t (Task.prepare_subcatalog s) = false := rfl

theorem isCOT_cf (t : Evaluation) (m : ModelF) (s : String) :
    isComputeOfTest t (Task.create_forecast m s) = false := rfl

theorem isCOT_compute (t t' : Evaluation) (kw : ComputeKwargs) :
    isComputeOfTest t (Task.compute t' kw) = decide (t' = t) := rfl

/-! Consequences of a well-formed evaluation type tag. -/

theorem wf_split {ty : String} (h : wellFormedType ty = true) :
    (strContains ty "Discrete" = true ∧ strContains ty "Sequential" = false ∨
     strContains ty "Discrete" = false ∧ strContains ty "Sequential" = true) ∧
    (strContains ty "Absolute" = true ∧ strContains ty "Comparative" = false ∧
        strContains ty "Batch" = false ∨
     strContains ty "Absolute" = false ∧ strContains ty "Comparative" = true ∧
        strContains ty "Batch" = false ∨
     strContains ty "Absolute" = false ∧ strContains ty "Comparative" = false ∧
        strContains ty "Batch" = true) := by
  unfold wellFormedType at h
  cases hD : strContains ty "Discrete" <;> cases hS : strContains ty "Sequential" <;>
    cases hA : strContains ty "Absolute" <;> cases hC : strContains ty "Comparative" <;>
      cases hB : strContains ty "Batch" <;> simp_all

theorem wf_comp_not_abs {ty : String} (h : wellFormedType ty = true)
    (hc : strContains ty "Comparative" = true) : strContains ty "Absolute" = false := by
  rcases (wf_split h).2 with ⟨h1, h2, h3⟩ | ⟨h1, h2, h3⟩ | ⟨h1, h2, h3⟩ <;> simp_all

theorem wf_comp_not_batch {ty : String} (h : wellFormedType ty = true)
    (hc : strContains ty "Comparative" = true) : strContains ty "Batch" = false := by
  rcases (wf_split h).2 with ⟨h1, h2, h3⟩ | ⟨h1, h2, h3⟩ | ⟨h1, h2, h3⟩ <;> simp_all

theorem wf_batch_not_abs {ty : String} (h : wellFormedType ty = true)
    (hb : strContains ty "Batch" = true) : strContains ty "Absolute" = false := by
  rcases (wf_split h).2 with ⟨h1, h2, h3⟩ | ⟨h1, h2, h3⟩ | ⟨h1, h2, h3⟩ <;> simp_all

theorem wf_batch_not_comp {ty : String} (h : wellFormedType ty = true)
    (hb : strContains ty "Batch" = true) : strContains ty "Comparative" = false := by
  rcases (wf_split h).2 with ⟨h1, h2, h3⟩ | ⟨h1, h2, h3⟩ | ⟨h1, h2, h3⟩ <;> simp_all

theorem wf_seq_not_disc {ty : String} (h : wellFormedType ty = true)
    (hs : strContains ty "Sequential" = true) : strContains ty "Discrete" = false := by
  rcases (wf_split h).1 with ⟨h1, h2⟩ | ⟨h1, h2⟩ <;> simp_all

theorem wf_disc_not_seq {ty : String} (h : wellFormedType ty = true)
    (hd : strContains ty "Discrete" = true) : strContains ty "Sequential" = false := by
  rcases (wf_split h).1 with ⟨h1, h2⟩ | ⟨h1, h2⟩ <;> simp_all

/-! Counting Discrete-Absolute compute tasks. -/

theorem countP_window (e : ExperimentF)
    (hwf : ∀ t ∈ e.tests, wellFormedType t.type = true) (w : TimeWindow) :
    (windowBlock e w).countP isDiscreteAbsoluteCompute
      = e.models.length * e.tests.countP
          (fun t => strContains t.type "Discrete" && strContains t.type "Absolute") := by
  rw [windowBlock]
  rw [List.countP_cons, List.countP_append, isDAC_sub]
  have hM : (e.models.flatMap (fun m =>
      Task.create_forecast m (timewindow2str w) ::
        ((e.tests.filter (fun t =>
            strContains t.type "Discrete" && strContains t.type "Absolute")).map
          (mkDiscreteAbsolute e (timewindow2str w) m)))).countP isDiscreteAbsoluteCompute
      = e.models.length * e.tests.countP
          (fun t => strContains t.type "Discrete" && strContains t.type "Absolute") := by
    rw [countP_flatMap]
    have hper : ∀ m : ModelF,
        ((Task.create_forecast m (timewindow2str w) ::
          ((e.tests.filter (fun t =>
              strContains t.type "Discrete" && strContains t.type "Absolute")).map
            (mkDiscreteAbsolute e (timewindow2str w) m))).countP isDiscreteAbsoluteCompute)
          = e.tests.countP
              (fun t => strContains t.type "Discrete" && strContains t.type "Absolute") := by
      intro m
      rw [List.countP_cons, isDAC_cf, countP_map']
      have hall : ∀ u ∈ (e.tests.filter (fun t =>
          strContains t.type "Discrete" && strContains t.type "Absolute")),
          isDiscreteAbsoluteCompute (mkDiscreteAbsolute e (timewindow2str w) m u) = true := by
        intro u hu
        have hg := List.of_mem_filter hu
        rw [mkDiscreteAbsolute, isDAC_compute]
        exact hg
      rw [List.countP_eq_length.mpr hall, ← List.countP_eq_length_filter]
      simp
    rw [List.map_congr_left (fun m _ => hper m), sum_map_const]
  have hC : (e.tests.flatMap (fun t =>
      if strContains t.type "Discrete" && strContains t.type "Comparative" then
        e.models.map (fun m => mkDiscreteComparative e (timewindow2str w) m t)
      else [])).countP isDiscreteAbsoluteCompute = 0 := by
    rw [countP_flatMap]
    apply List.sum_eq_zero
    intro x hx
    rw [List.mem_map] at hx
    obtain ⟨t, ht, rfl⟩ := hx
    cases hdc : (strContains t.type "Discrete" && strContains t.type "Comparative") with
    | false => simp [hdc]
    | true =>
      have hcomp : strContains t.type "Comparative" = true :=
        ((Bool.and_eq_true _ _).mp hdc).2
      have habs : strContains t.type "Absolute" = false :=
        wf_comp_not_abs (hwf t ht) hcomp
      simp only [hdc, if_true]
      rw [countP_map']
      apply List.countP_eq_zero.mpr
      intro m _
      simp [mkDiscreteComparative, isDAC_compute, habs]
  rw [hM, hC]
  simp

theorem countP_tail (e : ExperimentF)
    (hwf : ∀ t ∈ e.tests, wellFormedType t.type = true) :
    (e.tests.flatMap (tailFor e)).countP isDiscreteAbsoluteCompute = 0 := by
  rw [countP_flatMap]
  apply List.sum_eq_zero
  intro x hx
  rw [List.mem_map] at hx
  obtain ⟨t, ht, rfl⟩ := hx
  have hwft := hwf t ht
  rw [tailFor]
  cases hs : strContains t.type "Sequential" with
  | false =>
    simp only [hs, Bool.false_eq_true, if_false]
    cases hb : (strContains t.type "Discrete" && strContains t.type "Batch") with
    | false => simp [hb]
    | true =>
      have habs : strContains t.type "Absolute" = false :=
        wf_batch_not_abs hwft ((Bool.and_eq_true _ _).mp hb).2
      simp only [hb, if_true]
      rw [countP_map']
      apply List.countP_eq_zero.mpr
      intro m _
      simp [mkDiscreteBatch, isDAC_compute, habs]
  | true =>
    have hd : strContains t.type "Discrete" = false := wf_seq_not_disc hwft hs
    simp only [hs, if_true]
    cases ha : strContains t.type "Absolute" with
    | false =>
      cases hc : strContains t.type "Comparative" with
      | false => simp [ha, hc]
      | true =>
        simp only [hc, if_true, ha, Bool.false_eq_true, if_false]
        rw [countP_map']
        apply List.countP_eq_zero.mpr
        intro m _
        simp [mkSequentialComparative, isDAC_compute, hd]
    | true =>
      simp only [ha, if_true]
      rw [countP_map']
      apply List.countP_eq_zero.mpr
      intro m _
      simp [mkSequentialAbsolute, isDAC_compute, hd]


/-- C4: for every configuration with timewindows, models, and tests (whose
type tags are well formed per the spec's data model), the task list built by
`Experiment.prepare_tasks` contains exactly
timewindows x models x discrete-absolute-tests tasks whose method is
`compute` and whose evaluation type contains both "Discrete" and
"Absolute". -/
theorem claim_C4_discrete_absolute_count (e : ExperimentF)
    (hwf : ∀ t ∈ e.tests, wellFormedType t.type = true) :
    e.prepare_tasks.countP isDiscreteAbsoluteCompute
      = e.timewindows.length * (e.models.length *
          e.tests.countP
            (fun t => strContains t.type "Discrete" && strContains t.type "Absolute")) := by
  rw [prepare_tasks_eq, tasksSpec, List.countP_append, countP_flatMap,
    List.map_congr_left (fun w _ => countP_window e hwf w), sum_map_const,
    countP_tail e hwf, Nat.add_zero]

/-- Witness for C4 at the concrete scenario configuration (2 windows, 1
model, 1 Discrete-Absolute test): 2 x 1 x 1 Discrete-Absolute compute
tasks. -/
theorem claim_C4_witness :
    (∀ t ∈ cfgScenario1.tests, wellFormedType t.type = true) ∧
    cfgScenario1.prepare_tasks.countP isDiscreteAbsoluteCompute
      = cfgScenario1.timewindows.length * (cfgScenario1.models.length *
          cfgScenario1.tests.countP
            (fun t => strContains t.type "Discrete" && strContains t.type "Absolute")) :=
  ⟨by decide, claim_C4_discrete_absolute_count cfgScenario1 (by decide)⟩

/-- C5: `prepare_tasks` emits, per time window in list order, one
catalog-preparation task, then per model (in model-list order) a
forecast-creation task immediately followed by that (window, model)'s
Discrete-Absolute tasks, then the window's Discrete-Comparative tasks; the
sequential/batch tail follows all windows (the `tasksSpec`/`windowBlock`
decomposition).  In particular the 2-window/1-model/1-Discrete-Absolute-test
scenario yields exactly these 6 tasks in window-ascending order. -/
theorem claim_C5_task_order :
    (∀ e : ExperimentF, e.prepare_tasks = tasksSpec e) ∧
    cfgScenario1.prepare_tasks =
      [Task.prepare_subcatalog "0_10",
       Task.create_forecast ⟨"m1"⟩ "0_10",
       Task.compute ⟨"n_test", "Discrete Absolute", none⟩
         { timewindow := .single "0_10"
           catalog := .single "/results/run/0_10/catalog/catalog.json"
           model := ⟨"m1"⟩
           ref_model := none
           path := "/results/run/0_10/evaluations/n_test_m1.json" },
       Task.prepare_subcatalog "10_20",
       Task.create_forecast ⟨"m1"⟩ "10_20",
       Task.compute ⟨"n_test", "Discrete Absolute", none⟩
         { timewindow := .single "10_20"
           catalog := .single "/results/run/10_20/catalog/catalog.json"
           model := ⟨"m1"⟩
           ref_model := none
           path := "/results/run/10_20/evaluations/n_test_m1.json" }] :=
  ⟨prepare_tasks_eq, by decide⟩

/-! Filtering the task list down to the tasks of one evaluation. -/

theorem flatMap_congr {α β : Type} {f g : α → List β} :
    ∀ l : List α, (∀ x ∈ l, f x = g x) → l.flatMap f = l.flatMap g := by
  intro l
  induction l with
  | nil => intro _; rfl
  | cons x xs ih =>
    intro h
    rw [List.flatMap_cons, List.flatMap_cons, h x (List.mem_cons_self x xs),
      ih (fun y hy => h y (List.mem_cons_of_mem x hy))]

theorem length_flatMap' {α β : Type} (g : α → List β) :
    ∀ l : List α, (l.flatMap g).length = (l.map (fun x => (g x).length)).sum := by
  intro l
  induction l with
  | nil => rfl
  | cons x xs ih => simp [ih]

theorem filter_map' {α β : Type} (q : β → Bool) (f : α → β) :
    ∀ l : List α, (l.map f).filter q = (l.filter (fun x => q (f x))).map f := by
  intro l
  induction l with
  | nil => rfl
  | cons x xs ih =>
    cases hq : q (f x) <;> simp [List.filter_cons, hq, ih]

theorem filter_cot_of_ne {t u : Evaluation} (hne : u ≠ t) (mk : ModelF → Task)
    (hmk : ∀ m, ∃ kw, mk m = Task.compute u kw) (l : List ModelF) :
    (l.map mk).filter (isComputeOfTest t) = [] := by
  apply List.filter_eq_nil_iff.mpr
  intro task htask
  rw [List.mem_map] at htask
  obtain ⟨m, _, rfl⟩ := htask
  obtain ⟨kw, hkw⟩ := hmk m
  rw [hkw, isCOT_compute]
  simp [hne]

theorem modelsPart_filter_nil (e : ExperimentF) (t : Evaluation) (w : TimeWindow)
    (hDA : (strContains t.type "Discrete" && strContains t.type "Absolute") = false) :
    (e.models.flatMap (fun m =>
      Task.create_forecast m (timewindow2str w) ::
        ((e.tests.filter (fun u =>
            strContains u.type "Discrete" && strContains u.type "Absolute")).map
          (mkDiscreteAbsolute e (timewindow2str w) m)))).filter
        (isComputeOfTest t) = [] := by
  apply flatMap_filter_nil
  intro m _
  rw [List.filter_cons]
  simp only [isCOT_cf, Bool.false_eq_true, if_false]
  rw [filter_map']
  have hnil : ((e.tests.filter (fun u =>
      strContains u.type "Discrete" && strContains u.type "Absolute")).filter
        (fun u => isComputeOfTest t (mkDiscreteAbsolute e (timewindow2str w) m u))) = [] := by
    apply List.filter_eq_nil_iff.mpr
    intro u hu
    have hg := List.of_mem_filter hu
    rw [mkDiscreteAbsolute, isCOT_compute]
    simp only [decide_eq_true_eq]
    intro hut
    subst hut
    rw [hg] at hDA
    exact Bool.noConfusion hDA
  rw [hnil, List.map_nil]

theorem windowBlock_filter_nil (e : ExperimentF) (t : Evaluation) (w : TimeWindow)
    (hDA : (strContains t.type "Discrete" && strContains t.type "Absolute") = false)
    (hDC : (strContains t.type "Discrete" && strContains t.type "Comparative") = false) :
    (windowBlock e w).filter (isComputeOfTest t) = [] := by
  rw [windowBlock, List.filter_cons]
  simp only [isCOT_sub, Bool.false_eq_true, if_false]
  rw [List.filter_append, modelsPart_filter_nil e t w hDA, List.nil_append]
  apply flatMap_filter_nil
  intro u hu
  by_cases hg : (strContains u.type "Discrete" && strContains u.type "Comparative") = true
  · rw [if_pos hg]
    refine filter_cot_of_ne ?_ _ (fun m => ⟨_, rfl⟩) _
    intro hut
    subst hut
    rw [hg] at hDC
    exact Bool.noConfusion hDC
  · rw [if_neg hg]
    rfl

theorem windowBlock_filter_comp (e : ExperimentF) (t : Evaluation) (w : TimeWindow)
    (hcnt : e.tests.count t = 1)
    (hDA : (strContains t.type "Discrete" && strContains t.type "Absolute") = false)
    (hDC : (strContains t.type "Discrete" && strContains t.type "Comparative") = true) :
    (windowBlock e w).filter (isComputeOfTest t)
      = e.models.map (fun m => mkDiscreteComparative e (timewindow2str w) m t) := by
  rw [windowBlock, List.filter_cons]
  simp only [isCOT_sub, Bool.false_eq_true, if_false]
  rw [List.filter_append, modelsPart_filter_nil e t w hDA, List.nil_append]
  have hC := flatMap_filter_unique (q := isComputeOfTest t)
    (g := fun u =>
      if strContains u.type "Discrete" && strContains u.type "Comparative" then
        e.models.map (fun m => mkDiscreteComparative e (timewindow2str w) m u)
      else [])
    (t := t)
    (fun u hu => by
      dsimp only
      by_cases hg : (strContains u.type "Discrete" && strContains u.type "Comparative") = true
      · rw [if_pos hg]
        exact filter_cot_of_ne hu _ (fun m => ⟨_, rfl⟩) _
      · rw [if_neg hg]
        rfl)
    (by
      dsimp only
      rw [if_pos hDC]
      apply List.filter_eq_self.mpr
      intro task htask
      rw [List.mem_map] at htask
      obtain ⟨m, _, rfl⟩ := htask
      rw [mkDiscreteComparative, isCOT_compute]
      simp)
    e.tests hcnt
  rw [hC]
  dsimp only
  rw [if_pos hDC]

theorem tailFor_tasks (e : ExperimentF) (u : Evaluation) :
    ∀ task ∈ tailFor e u, ∃ kw, task = Task.compute u kw := by
  intro task htask
  rw [tailFor] at htask
  split at htask
  · split at htask
    · rw [List.mem_map] at htask
      obtain ⟨m, _, rfl⟩ := htask
      exact ⟨_, rfl⟩
    · split at htask
      · rw [List.mem_map] at htask
        obtain ⟨m, _, rfl⟩ := htask
        exact ⟨_, rfl⟩
      · cases htask
  · split at htask
    · rw [List.mem_map] at htask
      obtain ⟨m, _, rfl⟩ := htask
      exact ⟨_, rfl⟩
    · cases htask

theorem tailFor_filter_ne (e : ExperimentF) {u t : Evaluation} (hne : u ≠ t) :
    (tailFor e u).filter (isComputeOfTest t) = [] := by
  apply List.filter_eq_nil_iff.mpr
  intro task htask
  obtain ⟨kw, rfl⟩ := tailFor_tasks e u task htask
  rw [isCOT_compute]
  simp [hne]

theorem tailFor_filter_self (e : ExperimentF) (t : Evaluation) :
    (tailFor e t).filter (isComputeOfTest t) = tailFor e t := by
  apply List.filter_eq_self.mpr
  intro task htask
  obtain ⟨kw, rfl⟩ := tailFor_tasks e t task htask
  rw [isCOT_compute]
  simp

theorem tail_filter_nil_comp (e : ExperimentF) (t : Evaluation)
    (ht : t ∈ e.tests)
    (hwf : ∀ u ∈ e.tests, wellFormedType u.type = true)
    (hd : strContains t.type "Discrete" = true)
    (hc : strContains t.type "Comparative" = true) :
    (e.tests.flatMap (tailFor e)).filter (isComputeOfTest t) = [] := by
  apply flatMap_filter_nil
  intro u hu
  by_cases hut : u = t
  · subst hut
    have hs : strContains u.type "Sequential" = false := wf_disc_not_seq (hwf u ht) hd
    have hb : strContains u.type "Batch" = false := wf_comp_not_batch (hwf u ht) hc
    rw [tailFor, if_neg (by simp [hs]), if_neg (by simp [hb])]
    rfl
  · exact tailFor_filter_ne e hut

theorem filter_comparative (e : ExperimentF) (t : Evaluation)
    (ht : t ∈ e.tests) (hcnt : e.tests.count t = 1)
    (hwf : ∀ u ∈ e.tests, wellFormedType u.type = true)
    (hd : strContains t.type "Discrete" = true)
    (hc : strContains t.type "Comparative" = true) :
    e.prepare_tasks.filter (isComputeOfTest t)
      = e.timewindows.flatMap (fun w =>
          e.models.map (fun m => mkDiscreteComparative e (timewindow2str w) m t)) := by
  have habs : strContains t.type "Absolute" = false := wf_comp_not_abs (hwf t ht) hc
  rw [prepare_tasks_eq, tasksSpec, List.filter_append,
    tail_filter_nil_comp e t ht hwf hd hc, List.append_nil, filter_flatMap]
  exact flatMap_congr e.timewindows (fun w _ =>
    windowBlock_filter_comp e t w hcnt (by simp [habs]) (by simp [hd, hc]))

/-- C6: every Sequential (Absolute or Comparative) evaluation yields exactly
one task per model, placed after all per-window tasks, bound to the full
ordered list of per-window catalog paths, with its result path under the last
window's evaluations directory. -/
theorem claim_C6_sequential_tasks (e : ExperimentF) (t : Evaluation)
    (ht : t ∈ e.tests) (hcnt : e.tests.count t = 1)
    (hwf : ∀ u ∈ e.tests, wellFormedType u.type = true)
    (hseq : strContains t.type "Sequential" = true)
    (hmode : strContains t.type "Absolute" = true ∨ strContains t.type "Comparative" = true)
    (hne : e.timewindows ≠ []) :
    e.prepare_tasks
        = (e.timewindows.flatMap (windowBlock e)) ++ (e.tests.flatMap (tailFor e)) ∧
    (e.timewindows.flatMap (windowBlock e)).filter (isComputeOfTest t) = [] ∧
    e.prepare_tasks.filter (isComputeOfTest t) = e.models.map (seqTaskFor e t) ∧
    (∀ m : ModelF, seqTaskFor e t m = Task.compute t
        { timewindow := .multi (e.timewindows.map timewindow2str)
          catalog := .multi ((e.timewindows.map timewindow2str).map
            (fun w => e.catalogPath w))
          model := m
          ref_model := if strContains t.type "Absolute" then none
                       else some (.one (e.get_model t.ref_model))
          path := e.evalPath ((e.timewindows.map timewindow2str).getLastD "")
                    t.name m.name }) := by
  have hd : strContains t.type "Discrete" = false := wf_seq_not_disc (hwf t ht) hseq
  have hwinnil : (e.timewindows.flatMap (windowBlock e)).filter (isComputeOfTest t) = [] := by
    apply flatMap_filter_nil
    intro w _
    exact windowBlock_filter_nil e t w (by simp [hd]) (by simp [hd])
  have htailt : tailFor e t = e.models.map (seqTaskFor e t) := by
    rcases hmode with hA | hC
    · rw [tailFor, if_pos (by simp [hseq]), if_pos (by simp [hA])]
      exact List.map_congr_left (fun m _ => by rw [seqTaskFor, if_pos (by simp [hA])])
    · have hA : strContains t.type "Absolute" = false := wf_comp_not_abs (hwf t ht) hC
      rw [tailFor, if_pos (by simp [hseq]), if_neg (by simp [hA]),
        if_pos (by simp [hC])]
      exact List.map_congr_left (fun m _ => by rw [seqTaskFor, if_neg (by simp [hA])])
  refine ⟨prepare_tasks_eq e, hwinnil, ?_, ?_⟩
  · rw [prepare_tasks_eq, tasksSpec, List.filter_append, hwinnil, List.nil_append,
      flatMap_filter_unique (fun u hu => tailFor_filter_ne e hu)
        (tailFor_filter_self e t) e.tests hcnt, htailt]
  · intro m
    by_cases hA : strContains t.type "Absolute" = true
    · rw [seqTaskFor, if_pos (by simp [hA]), if_pos (by simp [hA])]
      rfl
    · rw [seqTaskFor, if_neg (by simp [hA]), if_neg (by simp [hA])]
      rfl

/-- Witness for C6 at the concrete scenario: 3 windows, 1 model, 1
Sequential-Absolute test. -/
theorem claim_C6_witness :
    ((⟨"seq", "Sequential Absolute", none⟩ : Evaluation) ∈ cfgSeq3.tests ∧
     cfgSeq3.tests.count ⟨"seq", "Sequential Absolute", none⟩ = 1 ∧
     strContains ("Sequential Absolute" : String) "Sequential" = true ∧
     cfgSeq3.timewindows ≠ []) ∧
    (cfgSeq3.prepare_tasks.filter
        (isComputeOfTest ⟨"seq", "Sequential Absolute", none⟩)
      = cfgSeq3.models.map (seqTaskFor cfgSeq3 ⟨"seq", "Sequential Absolute", none⟩)) :=
  ⟨⟨by decide, by decide, by decide, by decide⟩,
   (claim_C6_sequential_tasks cfgSeq3 ⟨"seq", "Sequential Absolute", none⟩
     (by decide) (by decide) (by decide) (by decide) (Or.inl (by decide))
     (by decide)).2.2.1⟩

/-- C7: every Discrete-Batch evaluation yields exactly one task per model,
using only the last window's catalog path, with `ref_model` bound to the
entire model list and its result path under the last window. -/
theorem claim_C7_batch_tasks (e : ExperimentF) (t : Evaluation)
    (ht : t ∈ e.tests) (hcnt : e.tests.count t = 1)
    (hwf : ∀ u ∈ e.tests, wellFormedType u.type = true)
    (hd : strContains t.type "Discrete" = true)
    (hb : strContains t.type "Batch" = true)
    (hne : e.timewindows ≠ []) :
    (e.timewindows.flatMap (windowBlock e)).filter (isComputeOfTest t) = [] ∧
    e.prepare_tasks.filter (isComputeOfTest t)
      = e.models.map (fun m => mkDiscreteBatch e m t) ∧
    (∀ m : ModelF, mkDiscreteBatch e m t = Task.compute t
        { timewindow := .single (timewindow2str (e.timewindows.getLastD ⟨0, 0⟩))
          catalog := .single (e.catalogPath (timewindow2str (e.timewindows.getLastD ⟨0, 0⟩)))
          model := m
          ref_model := some (.all e.models)
          path := e.evalPath (timewindow2str (e.timewindows.getLastD ⟨0, 0⟩))
                    t.name m.name }) := by
  have habs : strContains t.type "Absolute" = false := wf_batch_not_abs (hwf t ht) hb
  have hcomp : strContains t.type "Comparative" = false := wf_batch_not_comp (hwf t ht) hb
  have hs : strContains t.type "Sequential" = false := wf_disc_not_seq (hwf t ht) hd
  have hwinnil : (e.timewindows.flatMap (windowBlock e)).filter (isComputeOfTest t) = [] := by
    apply flatMap_filter_nil
    intro w _
    exact windowBlock_filter_nil e t w (by simp [habs]) (by simp [hcomp])
  have htailt : tailFor e t = e.models.map (fun m => mkDiscreteBatch e m t) := by
    rw [tailFor, if_neg (by simp [hs]), if_pos (by simp [hd, hb])]
  refine ⟨hwinnil, ?_, fun m => rfl⟩
  rw [prepare_tasks_eq, tasksSpec, List.filter_append, hwinnil, List.nil_append,
    flatMap_filter_unique (fun u hu => tailFor_filter_ne e hu)
      (tailFor_filter_self e t) e.tests hcnt, htailt]

/-- Witness for C7 at the concrete configuration: 2 windows, 2 models, 1
Discrete-Batch test. -/
theorem claim_C7_witness :
    ((⟨"batch", "Discrete Batch", none⟩ : Evaluation) ∈ cfgBatch.tests ∧
     cfgBatch.tests.count ⟨"batch", "Discrete Batch", none⟩ = 1 ∧
     cfgBatch.timewindows ≠ []) ∧
    (cfgBatch.prepare_tasks.filter
        (isComputeOfTest ⟨"batch", "Discrete Batch", none⟩)
      = cfgBatch.models.map (fun m => mkDiscreteBatch cfgBatch m ⟨"batch", "Discrete Batch", none⟩)) :=
  ⟨⟨by decide, by decide, by decide⟩,
   (claim_C7_batch_tasks cfgBatch ⟨"batch", "Discrete Batch", none⟩
     (by decide) (by decide) (by decide) (by decide) (by decide)
     (by decide)).2.1⟩

/-- Counterexample to C2: with one model "B" and a Comparative test whose
`ref_model` "A" resolves to no model, no error is raised — `get_model`
returns `None` and `prepare_tasks` returns a full task list whose comparative
task is bound to the missing (`None`) reference model. -/
theorem claim_C2_counterexample :
    cfgUnresolvedRef.get_model (some "A") = none ∧
    cfgUnresolvedRef.prepare_tasks =
      [Task.prepare_subcatalog "0_10",
       Task.create_forecast ⟨"B"⟩ "0_10",
       Task.compute compTestAB
         { timewindow := .single "0_10"
           catalog := .single "/results/run/0_10/catalog/catalog.json"
           model := ⟨"B"⟩
           ref_model := some (.one none)
           path := "/results/run/0_10/evaluations/ttest_B.json" }] := by
  constructor
  · decide
  · decide

/-- C2 (amended): a Comparative evaluation whose `ref_model` matches no model
name does not fail fast: `get_model` silently returns `None`, and
`prepare_tasks` still constructs one comparative task per (window, model),
each bound to a `None` reference model. -/
theorem claim_C2_amended (e : ExperimentF) (t : Evaluation)
    (ht : t ∈ e.tests) (hcnt : e.tests.count t = 1)
    (hwf : ∀ u ∈ e.tests, wellFormedType u.type = true)
    (hd : strContains t.type "Discrete" = true)
    (hc : strContains t.type "Comparative" = true)
    (hmiss : ∀ m ∈ e.models, some m.name ≠ t.ref_model) :
    e.get_model t.ref_model = none ∧
    e.prepare_tasks.filter (isComputeOfTest t)
      = e.timewindows.flatMap (fun w =>
          e.models.map (fun m => mkDiscreteComparative e (timewindow2str w) m t)) ∧
    (∀ task ∈ e.prepare_tasks.filter (isComputeOfTest t), ∃ kw : ComputeKwargs,
      task = Task.compute t kw ∧ kw.ref_model = some (.one none)) := by
  have hnone : e.get_model t.ref_model = none := by
    apply List.find?_eq_none.mpr
    intro m hm
    simp only [beq_iff_eq]
    exact hmiss m hm
  have hfilter := filter_comparative e t ht hcnt hwf hd hc
  refine ⟨hnone, hfilter, ?_⟩
  intro task htask
  rw [hfilter] at htask
  rw [List.mem_flatMap] at htask
  obtain ⟨w, _, htask⟩ := htask
  rw [List.mem_map] at htask
  obtain ⟨m, _, rfl⟩ := htask
  exact ⟨_, rfl, by simp [hnone]⟩

/-- Witness for C2 (amended) at the unresolved-reference configuration. -/
theorem claim_C2_amended_witness :
    (compTestAB ∈ cfgUnresolvedRef.tests ∧
     (∀ m ∈ cfgUnresolvedRef.models, some m.name ≠ compTestAB.ref_model)) ∧
    (cfgUnresolvedRef.get_model compTestAB.ref_model = none ∧
     cfgUnresolvedRef.prepare_tasks.filter (isComputeOfTest compTestAB)
       = cfgUnresolvedRef.timewindows.flatMap (fun w =>
           cfgUnresolvedRef.models.map (fun m =>
             mkDiscreteComparative cfgUnresolvedRef (timewindow2str w) m compTestAB))) :=
  ⟨⟨by decide, by decide⟩,
   let h := claim_C2_amended cfgUnresolvedRef compTestAB
     (by decide) (by decide) (by decide) (by decide) (by decide) (by decide)
   ⟨h.1, h.2.1⟩⟩

/-- Counterexample to C1: in `prepare_tasks`, a Discrete-Comparative test
referencing model "A" over models ["A", "B"] yields a task whose subject
model IS the reference model, and 2 (not 1) comparative tasks per window —
4 across the 2 windows. -/
theorem claim_C1_counterexample :
    Task.compute compTestAB
      { timewindow := .single "0_10"
        catalog := .single "/results/run/0_10/catalog/catalog.json"
        model := ⟨"A"⟩
        ref_model := some (.one (some ⟨"A"⟩))
        path := "/results/run/0_10/evaluations/ttest_A.json" }
      ∈ cfgTwoModelsComp.prepare_tasks ∧
    cfgTwoModelsComp.prepare_tasks.countP (isComputeOfTest compTestAB) = 4 := by
  constructor
  · decide
  · decide

end Fecsep

namespace Gefe

/-! Properties of the gefe test-preparation loop. -/

theorem get_model_name {e : GExperiment} {mname : String} {m : GModel}
    (h : e.get_model (some mname) = some m) : m.name = mname := by
  have hp := List.find?_some h
  simpa using hp

theorem prepareOne_shape {e : GExperiment} {fs : List String} {test : GTest}
    {mname : String} {t : GTest} {e' : GExperiment}
    (h : prepareOne e fs test mname = .ok (t, e')) :
    t.ref_model = test.ref_model ∧
    ∃ m : GModel, t.model = some m ∧ m.name = mname := by
  unfold prepareOne at h
  split at h
  · cases h
  · split at h
    · cases h
    · split at h
      · cases h
      · split at h
        · cases h
        · split at h
          · cases h
          · rename_i args e1 tp _ row _ path _ m hm
            simp only [Except.ok.injEq, Prod.mk.injEq] at h
            obtain ⟨ht, _⟩ := h
            subst ht
            exact ⟨rfl, m, rfl, get_model_name hm⟩

theorem foldl_prepStep_error (fs : List String) (mname : String) (err : GErr) :
    ∀ tests : List GTest,
      tests.foldl (prepStep fs mname) (.error err) = .error err := by
  intro tests
  induction tests with
  | nil => rfl
  | cons test rest ih => rw [List.foldl_cons]; exact ih

theorem foldl_modelLoop_error (fs : List String) (err : GErr) :
    ∀ names : List String,
      names.foldl (modelLoop fs) (.error err) = .error err := by
  intro names
  induction names with
  | nil => rfl
  | cons n rest ih => rw [List.foldl_cons]; exact ih

theorem inner_fold_good (fs : List String) (mname : String) :
    ∀ (tests : List GTest) (acc : List GTest) (e : GExperiment)
      (res : List GTest × GExperiment),
      (∀ t ∈ acc, ∀ m : GModel, t.model = some m → t.ref_model ≠ some m.name) →
      tests.foldl (prepStep fs mname) (.ok (acc, e)) = .ok res →
      ∀ t ∈ res.1, ∀ m : GModel, t.model = some m → t.ref_model ≠ some m.name := by
  intro tests
  induction tests with
  | nil =>
    intro acc e res hacc h
    rw [List.foldl_nil] at h
    cases h
    exact hacc
  | cons test rest ih =>
    intro acc e res hacc h
    rw [List.foldl_cons] at h
    by_cases hskip : (test.ref_model == some mname) = true
    · rw [show prepStep fs mname (.ok (acc, e)) test = .ok (acc, e) by
        rw [prepStep]; simp [hskip]] at h
      exact ih acc e res hacc h
    · cases hone : prepareOne e fs test mname with
      | error err =>
        rw [show prepStep fs mname (.ok (acc, e)) test = .error err by
          rw [prepStep]; simp [hskip, hone]] at h
        rw [foldl_prepStep_error] at h
        cases h
      | ok pe =>
        obtain ⟨t, e1⟩ := pe
        rw [show prepStep fs mname (.ok (acc, e)) test = .ok (acc ++ [t], e1) by
          rw [prepStep]; simp [hskip, hone]] at h
        refine ih (acc ++ [t]) e1 res ?_ h
        intro u hu
        rw [List.mem_append] at hu
        rcases hu with hu | hu
        · exact hacc u hu
        · rw [List.mem_singleton] at hu
          subst hu
          obtain ⟨href, m, hmod, hname⟩ := prepareOne_shape hone
          intro m' hm' heq
          rw [hmod] at hm'
          cases hm'
          rw [href, hname] at heq
          exact hskip (by simp [heq])

theorem outer_fold_good (fs : List String) :
    ∀ (names : List String) (acc : List GTest) (e : GExperiment)
      (res : List GTest × GExperiment),
      (∀ t ∈ acc, ∀ m : GModel, t.model = some m → t.ref_model ≠ some m.name) →
      names.foldl (modelLoop fs) (.ok (acc, e)) = .ok res →
      ∀ t ∈ res.1, ∀ m : GModel, t.model = some m → t.ref_model ≠ some m.name := by
  intro names
  induction names with
  | nil =>
    intro acc e res hacc h
    rw [List.foldl_nil] at h
    cases h
    exact hacc
  | cons n rest ih =>
    intro acc e res hacc h
    rw [List.foldl_cons] at h
    cases hstep : e.tests.foldl (prepStep fs n) (.ok (acc, e)) with
    | error err =>
      rw [show modelLoop fs (.ok (acc, e)) n = .error err from hstep ▸ rfl] at h
      rw [foldl_modelLoop_error] at h
      cases h
    | ok pe =>
      obtain ⟨acc1, e1⟩ := pe
      rw [show modelLoop fs (.ok (acc, e)) n = .ok (acc1, e1) from hstep ▸ rfl] at h
      exact ih acc1 e1 res (inner_fold_good fs n e.tests acc e (acc1, e1) hacc hstep) h

/-- Every test produced by a successful `prepare_all_tests` run binds a
subject model distinct from its reference model. -/
theorem prepare_all_tests_good (e0 : GExperiment) (fs : List String)
    (res : List GTest × GExperiment)
    (h : e0.prepare_all_tests fs = .ok res) :
    ∀ t ∈ res.1, ∀ m : GModel, t.model = some m → t.ref_model ≠ some m.name := by
  rw [GExperiment.prepare_all_tests] at h
  exact outer_fold_good fs _ [] e0 res (by intro t ht; cases ht) h

theorem lookup_map_replace (k : Nat) (v : GForecast) :
    ∀ l : List (Nat × GForecast), (l.lookup k).isSome = true →
      (l.map (fun p => if p.1 = k then (k, v) else p)).lookup k = some v := by
  intro l
  induction l with
  | nil => intro h; simp [List.lookup] at h
  | cons p rest ih =>
    intro h
    obtain ⟨pk, pv⟩ := p
    rw [List.map_cons]
    dsimp only
    by_cases hp : pk = k
    · subst hp
      rw [if_pos rfl]
      simp [List.lookup]
    · rw [if_neg hp]
      rw [List.lookup, show (k == pk) = false by simp [Ne.symm hp]]
      rw [List.lookup, show (k == pk) = false by simp [Ne.symm hp]] at h
      exact ih h

theorem lookup_dictInsert (k : Nat) (v : GForecast) :
    ∀ l : List (Nat × GForecast), (dictInsert l k v).lookup k = some v := by
  intro l
  rw [dictInsert]
  by_cases h : (l.lookup k).isSome = true
  · rw [if_pos h]
    exact lookup_map_replace k v l h
  · rw [if_neg h]
    induction l with
    | nil => simp [List.lookup]
    | cons p rest ih =>
      obtain ⟨pk, pv⟩ := p
      rw [List.cons_append]
      by_cases hp : k = pk
      · subst hp
        simp [List.lookup] at h
      · rw [List.lookup, show (k == pk) = false by simp [hp]]
        rw [List.lookup, show (k == pk) = false by simp [hp]] at h
        exact ih h

/-- Counterexample to C3: the registry flags of `expCached` report every
output artifact absent, yet the second forecast request returns the cached
in-memory object with the model — including its invocation counter —
unchanged: the cache is not bypassed and nothing is regenerated. -/
theorem claim_C3_counterexample :
    expCached.exists_flags = some allAbsentFlags ∧
    allAbsentFlags.catalog = false ∧
    (∀ row ∈ allAbsentFlags.evaluations, ∀ entry ∈ row.2, entry.2 = false) ∧
    expCached.get_forecast cachedModel = (cachedFc, cachedModel) ∧
    cachedModel.funcCalls = 3 := by
  refine ⟨rfl, rfl, ?_, rfl, rfl⟩
  decide

/-- C3 (amended): the forecast cache is consulted purely by key presence of
the experiment's `test_date` in `model.forecasts` — a hit returns the cached
object without invoking the generating function, for every experiment state
(no file or registry condition is consulted); a miss invokes the generator
(invocation counter +1) and stores the fresh forecast under the experiment's
`end_date`, the value `get_forecast` passes as `create_forecast`'s test
date. -/
theorem claim_C3_cache_semantics :
    (∀ (e : GExperiment) (m : GModel) (d : Nat) (fc : GForecast),
       e.test_date = some d → m.forecasts.lookup d = some fc →
       e.get_forecast m = (fc, m)) ∧
    (∀ (e : GExperiment) (m : GModel) (d : Nat),
       e.test_date = some d → m.forecasts.lookup d = none →
       (e.get_forecast m).2.funcCalls = m.funcCalls + 1 ∧
       (e.get_forecast m).2.forecasts.lookup e.end_date = some (e.get_forecast m).1) := by
  constructor
  · intro e m d fc hd hfc
    simp only [GExperiment.get_forecast, hd, hfc]
  · intro e m d hd hnone
    simp only [GExperiment.get_forecast, hd, hnone, GModel.create_forecast]
    refine ⟨?_, ?_⟩
    · first
      | rfl
      | trivial
    · exact lookup_dictInsert e.end_date _ m.forecasts

/-- Witness for C3 (amended): a cache hit on `expCached` (returns the cached
forecast, counter unchanged) and a cache miss on `expMiss` (counter 3 → 4,
fresh forecast stored under the end date). -/
theorem claim_C3_witness :
    (expCached.test_date = some 7 ∧
     cachedModel.forecasts.lookup 7 = some cachedFc ∧
     expCached.get_forecast cachedModel = (cachedFc, cachedModel)) ∧
    (expMiss.test_date = some 9 ∧
     cachedModel.forecasts.lookup 9 = none ∧
     (expMiss.get_forecast cachedModel).2.funcCalls = cachedModel.funcCalls + 1 ∧
     (expMiss.get_forecast cachedModel).2.forecasts.lookup expMiss.end_date
       = some (expMiss.get_forecast cachedModel).1) :=
  ⟨⟨rfl, rfl, claim_C3_cache_semantics.1 expCached cachedModel 7 cachedFc rfl rfl⟩,
   ⟨rfl, rfl, (claim_C3_cache_semantics.2 expMiss cachedModel 9 rfl rfl).1,
    (claim_C3_cache_semantics.2 expMiss cachedModel 9 rfl rfl).2⟩⟩

/-- C10: `get_run_struct` raises the `RuntimeError` "Test date must be set
before running experiment." when `test_date` is unset, and does so before any
side effect — the filesystem and the experiment's
`run_folder`/`target_paths`/`exists` attributes are exactly as before the
call; on the success path all three attributes get assigned. -/
theorem claim_C10_run_struct_guard (e : GExperiment) (fs : List String)
    (rn : Option String) :
    (e.test_date = none →
      e.get_run_struct fs rn
        = ((e, fs), .error "Test date must be set before running experiment.")) ∧
    (∀ td, e.test_date = some td →
      (e.get_run_struct fs rn).1.1.run_folder.isSome = true ∧
      (e.get_run_struct fs rn).1.1.target_paths.isSome = true ∧
      (e.get_run_struct fs rn).1.1.exists_flags.isSome = true) := by
  constructor
  · intro h
    simp only [GExperiment.get_run_struct, h]
  · intro td h
    simp only [GExperiment.get_run_struct, h]
    exact ⟨rfl, rfl, rfl⟩

/-- Witness for C10: the unset-date experiment is returned untouched with the
error, while the dated experiment gets its attributes assigned. -/
theorem claim_C10_witness :
    (expNoDate.test_date = none ∧
     expNoDate.get_run_struct ["seed"] none
       = ((expNoDate, ["seed"]),
          .error "Test date must be set before running experiment.")) ∧
    (expWithDate.test_date = some 5 ∧
     (expWithDate.get_run_struct [] none).1.1.run_folder.isSome = true) :=
  ⟨⟨rfl, (claim_C10_run_struct_guard expNoDate ["seed"] none).1 rfl⟩,
   ⟨rfl, ((claim_C10_run_struct_guard expWithDate [] none).2 5 rfl).1⟩⟩

end Gefe

/-- C1 (amended): gefe's `prepare_all_tests` never constructs a prepared test
whose subject model equals its reference model, but fecsep's `prepare_tasks`
does not skip the reference model: a Discrete-Comparative test yields one
task for every (window, model) pair — timewindows x models tasks in total,
the reference model included. -/
theorem claim_C1_amended :
    (∀ (e : Gefe.GExperiment) (fs : List String)
       (res : List Gefe.GTest × Gefe.GExperiment),
       e.prepare_all_tests fs = .ok res →
       ∀ t ∈ res.1, ∀ m : Gefe.GModel, t.model = some m → t.ref_model ≠ some m.name) ∧
    (∀ (e : Fecsep.ExperimentF) (t : Fecsep.Evaluation),
       t ∈ e.tests → e.tests.count t = 1 →
       (∀ u ∈ e.tests, Fecsep.wellFormedType u.type = true) →
       strContains t.type "Discrete" = true →
       strContains t.type "Comparative" = true →
       e.prepare_tasks.filter (Fecsep.isComputeOfTest t)
         = e.timewindows.flatMap (fun w => e.models.map
             (fun m => Fecsep.mkDiscreteComparative e (timewindow2str w) m t)) ∧
       (e.prepare_tasks.filter (Fecsep.isComputeOfTest t)).length
         = e.timewindows.length * e.models.length) := by
  constructor
  · exact fun e fs res h => Gefe.prepare_all_tests_good e fs res h
  · intro e t ht hcnt hwf hd hc
    have hf := Fecsep.filter_comparative e t ht hcnt hwf hd hc
    refine ⟨hf, ?_⟩
    rw [hf, Fecsep.length_flatMap',
      List.map_congr_left (fun w _ => by rw [List.length_map]), sum_map_const]

/-- Witness for C1 (amended): the concrete gefe run skips the
self-comparison (its only prepared test pits "B" against reference "A"),
while the concrete fecsep configuration yields 2 x 2 = 4 comparative
tasks. -/
theorem claim_C1_amended_witness :
    (Gefe.expPrep.prepare_all_tests [] = .ok Gefe.expPrepResult ∧
     Gefe.preparedTB ∈ Gefe.expPrepResult.1 ∧
     (∀ m : Gefe.GModel, Gefe.preparedTB.model = some m →
        Gefe.preparedTB.ref_model ≠ some m.name)) ∧
    (Fecsep.compTestAB ∈ Fecsep.cfgTwoModelsComp.tests ∧
     Fecsep.cfgTwoModelsComp.prepare_tasks.filter
         (Fecsep.isComputeOfTest Fecsep.compTestAB)
       = Fecsep.cfgTwoModelsComp.timewindows.flatMap (fun w =>
           Fecsep.cfgTwoModelsComp.models.map (fun m =>
             Fecsep.mkDiscreteComparative Fecsep.cfgTwoModelsComp
               (timewindow2str w) m Fecsep.compTestAB)) ∧
     (Fecsep.cfgTwoModelsComp.prepare_tasks.filter
         (Fecsep.isComputeOfTest Fecsep.compTestAB)).length = 4) := by
  refine ⟨⟨rfl, by decide,
    claim_C1_amended.1 Gefe.expPrep [] Gefe.expPrepResult rfl
      Gefe.preparedTB (by decide)⟩, ?_⟩
  have h := claim_C1_amended.2 Fecsep.cfgTwoModelsComp Fecsep.compTestAB
    (by decide) (by decide) (by decide) (by decide) (by decide)
  exact ⟨by decide, h.1, h.2⟩

namespace Registry

/-! Registry resolution: the interleaved parse-and-index loop refines the
normalize-then-lookup description, and resolution lands on absolute paths. -/

theorem resolveFrom_eq_lookupPath :
    ∀ (args : List RegArg) (keys : List String),
      normalizeKeys args = .ok keys →
      ∀ t : PathTree, resolveFrom t args = lookupPath t keys := by
  intro args
  induction args with
  | nil =>
    intro keys h t
    simp only [normalizeKeys, List.mapM_nil, pure, Except.pure, Except.ok.injEq] at h
    subst h
    cases t <;> rfl
  | cons a rest ih =>
    intro keys h t
    rw [normalizeKeys, List.mapM_cons] at h
    cases hp : parse_arg a with
    | error err =>
      rw [hp] at h
      cases h
    | ok k =>
      rw [hp] at h
      cases hrest : (rest.mapM parse_arg : Except RegErr (List String)) with
      | error err =>
        rw [hrest] at h
        cases h
      | ok ks =>
        rw [hrest] at h
        cases h
        cases t with
        | leaf v =>
          rw [resolveFrom, hp]
          rfl
        | node es =>
          rw [resolveFrom, hp, lookupPath]
          dsimp only
          cases hl : es.lookup k with
          | none => rfl
          | some v => exact ih ks hrest v

theorem isAbsolutePath_append (a b : String) (h : isAbsolutePath a = true) :
    isAbsolutePath (a ++ b) = true := by
  rw [isAbsolutePath] at h ⊢
  rw [show (a ++ b).toList = a.toList ++ b.toList from rfl]
  cases hl : a.toList with
  | nil =>
    rw [hl] at h
    simp at h
  | cons c cs =>
    rw [hl] at h
    simpa using h

theorem isAbsolutePath_abs (reg : ExperimentRegistry)
    (h : isAbsolutePath reg.workdir = true) :
    ∀ ps : List String, isAbsolutePath (reg.abs ps) = true := by
  have hgen : ∀ (ps : List String) (start : String), isAbsolutePath start = true →
      isAbsolutePath (ps.foldl (fun a b => a ++ "/" ++ b) start) = true := by
    intro ps
    induction ps with
    | nil => intro start hs; exact hs
    | cons p rest ih =>
      intro start hs
      rw [List.foldl_cons]
      exact ih _ (isAbsolutePath_append _ _ (isAbsolutePath_append _ _ hs))
  intro ps
  exact hgen ps reg.workdir h

theorem get_result_abs (reg : ExperimentRegistry) (args : List RegArg)
    (p : String) (hw : isAbsolutePath reg.workdir = true)
    (h : reg.get_result args = .ok p) : isAbsolutePath p = true := by
  rw [ExperimentRegistry.get_result] at h
  cases hres : resolveFrom (.node reg.results) args with
  | error err =>
    rw [hres] at h
    cases h
  | ok t =>
    rw [hres] at h
    cases t with
    | leaf v =>
      cases h
      exact isAbsolutePath_abs reg hw _
    | node es => cases h

/-- C8: `_parse_arg` normalizes each key by the single dispatch rule (a
time-window pair to its canonical string, a plain string unchanged, an object
to its `.name` or else its `__name__`, anything else raising), and the
getters resolve the normalized key sequence through the precomputed tree —
returning the run-dir-rooted absolute path at a leaf and failing with a
lookup error whenever a normalized segment is absent. -/
theorem claim_C8_registry_resolution :
    ((∀ tw : TimeWindow, parse_arg (.pair tw) = .ok (timewindow2str tw)) ∧
     (∀ s : String, parse_arg (.str s) = .ok s) ∧
     (∀ n d, parse_arg (.obj (some n) d) = .ok n) ∧
     (∀ f, parse_arg (.obj none (some f)) = .ok f) ∧
     parse_arg (.obj none none) = .error .argNotFound) ∧
    (∀ (reg : ExperimentRegistry) (args : List RegArg) (keys : List String),
       normalizeKeys args = .ok keys →
       (reg.get_result args = match lookupPath (.node reg.results) keys with
         | .ok (.leaf v) => .ok (reg.abs [reg.run_dir, v])
         | .ok (.node _) => .error .typeError
         | .error err => .error err) ∧
       (reg.get_test_catalog args = match lookupPath (.node reg.test_catalogs) keys with
         | .ok (.leaf v) => .ok (reg.abs [reg.run_dir, v])
         | .ok (.node _) => .error .typeError
         | .error err => .error err) ∧
       (reg.get_figure args = match lookupPath (.node reg.figures) keys with
         | .ok (.leaf v) => .ok (reg.abs [reg.run_dir, v])
         | .ok (.node _) => .error .typeError
         | .error err => .error err)) ∧
    (∀ (reg : ExperimentRegistry) (args : List RegArg) (p : String),
       isAbsolutePath reg.workdir = true →
       reg.get_result args = .ok p → isAbsolutePath p = true) := by
  refine ⟨⟨fun tw => rfl, fun s => rfl, fun n d => rfl, fun f => rfl, rfl⟩, ?_, ?_⟩
  · intro reg args keys h
    refine ⟨?_, ?_, ?_⟩
    · rw [ExperimentRegistry.get_result, resolveFrom_eq_lookupPath args keys h]
    · rw [ExperimentRegistry.get_test_catalog, resolveFrom_eq_lookupPath args keys h]
    · rw [ExperimentRegistry.get_figure, resolveFrom_eq_lookupPath args keys h]
  · exact get_result_abs

/-- Witness for C8 at the concrete one-window registry: a successful
resolution to the absolute result path, a missing-segment lookup error, and
the absolute-path conclusion. -/
theorem claim_C8_witness :
    (normalizeKeys [RegArg.str "0_10", RegArg.obj (some "t") none,
        RegArg.obj none (some "m")] = .ok ["0_10", "t", "m"] ∧
     normalizeKeys [RegArg.pair ⟨0, 10⟩, RegArg.str "t", RegArg.str "missing"]
       = .ok ["0_10", "t", "missing"] ∧
     isAbsolutePath regW.workdir = true) ∧
    (regW.get_result [RegArg.str "0_10", RegArg.obj (some "t") none,
        RegArg.obj none (some "m")]
      = .ok "/work/results/0_10/evaluations/t_m.json" ∧
     regW.get_result [RegArg.pair ⟨0, 10⟩, RegArg.str "t", RegArg.str "missing"]
      = .error .keyError ∧
     isAbsolutePath "/work/results/0_10/evaluations/t_m.json" = true) := by
  refine ⟨⟨rfl, rfl, rfl⟩, ?_, ?_, ?_⟩
  · exact (claim_C8_registry_resolution.2.1 regW
      [RegArg.str "0_10", RegArg.obj (some "t") none, RegArg.obj none (some "m")]
      ["0_10", "t", "m"] rfl).1
  · exact (claim_C8_registry_resolution.2.1 regW
      [RegArg.pair ⟨0, 10⟩, RegArg.str "t", RegArg.str "missing"]
      ["0_10", "t", "missing"] rfl).1
  · exact claim_C8_registry_resolution.2.2 regW
      [RegArg.str "0_10", RegArg.obj (some "t") none, RegArg.obj none (some "m")]
      "/work/results/0_10/evaluations/t_m.json" rfl rfl

/-! Idempotence of `build_tree`. -/

theorem foldl_flatMap_map {γ A B X : Type} (g : γ → X → γ) (k : A → B → X)
    (l2 : List B) :
    ∀ (l1 : List A) (init : γ),
      l1.foldl (fun acc a => l2.foldl (fun acc b => g acc (k a b)) acc) init
        = (l1.flatMap (fun a => l2.map (k a))).foldl g init := by
  intro l1
  induction l1 with
  | nil => intro init; rfl
  | cons a rest ih =>
    intro init
    rw [List.foldl_cons, List.flatMap_cons, List.foldl_append, ih, List.foldl_map]

theorem mem_insertDirs_of_mem {x : String} :
    ∀ (ds : List String) (fs : List String), x ∈ fs →
      x ∈ ds.foldl Gefe.makeDirs fs := by
  intro ds
  induction ds with
  | nil => intro fs h; exact h
  | cons d rest ih =>
    intro fs h
    rw [List.foldl_cons]
    refine ih _ ?_
    rw [Gefe.makeDirs]
    split
    · exact h
    · exact List.mem_append_left _ h

theorem mem_insertDirs_self :
    ∀ (ds : List String) (fs : List String) (d : String), d ∈ ds →
      d ∈ ds.foldl Gefe.makeDirs fs := by
  intro ds
  induction ds with
  | nil => intro fs d h; cases h
  | cons d0 rest ih =>
    intro fs d h
    rw [List.foldl_cons]
    rcases List.mem_cons.mp h with rfl | h
    · refine mem_insertDirs_of_mem rest _ ?_
      rw [Gefe.makeDirs]
      split
      · assumption
      · exact List.mem_append_right _ (List.mem_singleton.mpr rfl)
    · exact ih _ d h

theorem insertDirs_eq_of_mem :
    ∀ (ds : List String) (fs : List String), (∀ d ∈ ds, d ∈ fs) →
      ds.foldl Gefe.makeDirs fs = fs := by
  intro ds
  induction ds with
  | nil => intro fs _; rfl
  | cons d rest ih =>
    intro fs h
    rw [List.foldl_cons, Gefe.makeDirs, if_pos (h d (List.mem_cons_self d rest))]
    exact ih fs (fun x hx => h x (List.mem_cons_of_mem d hx))

theorem insertDirs_nodup :
    ∀ (ds : List String) (fs : List String), fs.Nodup →
      (ds.foldl Gefe.makeDirs fs).Nodup := by
  intro ds
  induction ds with
  | nil => intro fs h; exact h
  | cons d rest ih =>
    intro fs h
    rw [List.foldl_cons]
    refine ih _ ?_
    rw [Gefe.makeDirs]
    split
    · exact h
    · rename_i hd
      simp [List.nodup_append, h, hd]

theorem build_tree_fs (reg : ExperimentRegistry) (fs : List String)
    (tws : List TimeWindow) (models tests : List Named) :
    (reg.build_tree fs tws models tests).2
      = ((tws.map timewindow2str).flatMap (fun win =>
          ["catalog", "evaluations", "figures"].map (fun folder =>
            reg.abs [reg.run_dir, win, folder]))).foldl Gefe.makeDirs fs := by
  rw [ExperimentRegistry.build_tree]
  dsimp only
  rw [foldl_flatMap_map]

/-- C9: `build_tree` is idempotent — a second call with the same windows,
models and tests returns the identical registry (results, test-catalog and
figure dictionaries included) and the identical filesystem, and the exist-ok
directory creation never introduces duplicate directories. -/
theorem claim_C9_build_tree_idempotent (reg : ExperimentRegistry)
    (fs : List String) (tws : List TimeWindow) (models tests : List Named) :
    (reg.build_tree fs tws models tests).1.build_tree
        (reg.build_tree fs tws models tests).2 tws models tests
      = reg.build_tree fs tws models tests ∧
    (fs.Nodup → (reg.build_tree fs tws models tests).2.Nodup) := by
  constructor
  · refine Prod.ext ?_ ?_
    · rfl
    · rw [build_tree_fs, build_tree_fs]
      refine insertDirs_eq_of_mem _ _ ?_
      intro d hd
      exact mem_insertDirs_self _ _ d hd
  · intro h
    rw [build_tree_fs]
    exact insertDirs_nodup _ _ h

/-- Witness for C9 at a concrete one-window registry over a nonduplicated
filesystem. -/
theorem claim_C9_witness :
    (["/existing"] : List String).Nodup ∧
    (regEmpty.build_tree ["/existing"] [⟨0, 10⟩] [⟨"m"⟩] [⟨"t"⟩]).1.build_tree
        (regEmpty.build_tree ["/existing"] [⟨0, 10⟩] [⟨"m"⟩] [⟨"t"⟩]).2
        [⟨0, 10⟩] [⟨"m"⟩] [⟨"t"⟩]
      = regEmpty.build_tree ["/existing"] [⟨0, 10⟩] [⟨"m"⟩] [⟨"t"⟩] ∧
    (regEmpty.build_tree ["/existing"] [⟨0, 10⟩] [⟨"m"⟩] [⟨"t"⟩]).2.Nodup :=
  ⟨by decide,
   (claim_C9_build_tree_idempotent regEmpty ["/existing"] [⟨0, 10⟩] [⟨"m"⟩] [⟨"t"⟩]).1,
   (claim_C9_build_tree_idempotent regEmpty ["/existing"] [⟨0, 10⟩] [⟨"m"⟩] [⟨"t"⟩]).2
     (by decide)⟩

end Registry

end FloatCSEP
